import Mathlib

/-!
# Lab4: AT-command handshake with the LoRa module

Shallow embedding of `src/Lab4/main.c`.

* Bytes (`char`, `uint8_t`) are natural numbers; text constants of the source are
  written as string literals and turned into bytes by `bytes`.
* A `const char *` argument is the list of bytes of the object it points into, starting
  at the pointer.  The C string it denotes is the part before the first NUL byte.
  A read at an index outside that list has no defined result.
* `printf` and `iuart_send` calls are recorded as events, in program order.
* The loop of `main` is a step function on the variables that live across iterations.
  Each step receives what the environment does during that iteration: the button levels
  sampled and, for every pass of the receive loop before the deadline, the byte delivered
  by `iuart_read` or nothing.
* Results are `Option`s: `none` stands for an iteration that does not end on the given
  input or for a read outside an object.
-/

namespace Lab4

/-! ## Constants of the source -/

/-- Size of the receive buffer: `#define RX_BUFFER_SIZE 128`. -/
def RX_BUFFER_SIZE : Nat := 128

/-- Retry budget of the probe: `#define MAX_AT_RETRIES 5`. -/
def MAX_AT_RETRIES : Int := 5

/-- Size of the identity array: `#define DEVEUI_LENGTH 17` (16 characters and the
terminator). -/
def DEVEUI_LENGTH : Nat := 17

/-! ## Bytes and C strings -/

/-- The bytes of a text constant of the source (ASCII), without the terminator. -/
def bytes (s : String) : List Nat := s.toList.map Char.toNat

/-- The C string stored at the start of `mem`: the bytes before the first NUL. -/
def c_str (mem : List Nat) : List Nat := mem.takeWhile (fun c => c != 0)

/-- Function `tolower` of the C library in the "C" locale: `A`..`Z` (65..90) go to
`a`..`z`, every other value is returned unchanged. -/
def tolower (c : Nat) : Nat := if 65 ≤ c ∧ c ≤ 90 then c + 32 else c

/-- Function `strstr(hay, needle)` on C strings given without their terminators: the
index of the first occurrence of `needle` in `hay`, or `none` for a `NULL` result. -/
def strstr : List Nat → List Nat → Option Nat
  | [], needle => if needle = [] then some 0 else none
  | c :: hay, needle =>
      if needle.isPrefixOf (c :: hay) then some 0
      else (strstr hay needle).map (fun k => k + 1)

/-! ## Output events -/

/-- An argument of a `printf` call: `%d` takes an `int`, `%s` takes a C string. -/
inductive Arg where
  | d (n : Int)
  | s (text : List Nat)
  deriving DecidableEq, Repr

/-- Observable actions of the program, in the order in which they happen. -/
inductive Event where
  | printf (fmt : String) (args : List Arg)
  | iuart_send (text : String)
  deriving DecidableEq, Repr

/-! ## `process_deveui` -/

/-- The `for` loop of `process_deveui`.  The first argument is the memory from
`start_deveui[i]` on, the second the bytes stored so far in `processed_deveui` (`pos` is
its length).  The loop condition reads `start_deveui[i]` before it tests `pos`; running
off the object gives `none`.  Every stored byte is `tolower c` with `c` not NUL, hence not
NUL itself, so after `processed_deveui[pos] = 0` the C string printed with `%s` is exactly
the list of stored bytes. -/
def deveui_loop : List Nat → List Nat → Option (List Nat)
  | [], _ => none
  | c :: mem, out =>
      if c ≠ 0 ∧ out.length < DEVEUI_LENGTH - 1 then
        if c ≠ 58 then deveui_loop mem (out ++ [tolower c])
        else deveui_loop mem out
      else some out

/-- Function `void process_deveui(const char *s)`: the events it produces, or `none` when it
reads outside the object `s` points into (no terminator in `s`, or `start_deveui`
moved past the end). -/
def process_deveui (s : List Nat) : Option (List Event) :=
  if 0 ∈ s then
    match strstr (c_str s) (bytes ",") with
    | none => some [Event.printf "Wrong DevEui format.\n" []]
    | some k =>
        (deveui_loop (s.drop (k + 2)) []).map
          (fun processed_deveui => [Event.printf "%s\r\n" [Arg.s processed_deveui]])
  else none

/-! ## `read_line_with_timeout` -/

/-- The `while` loop of `read_line_with_timeout`.  The list holds one entry for every
iteration that starts before the deadline: `some c` when `iuart_read` delivers the byte
`c`, `none` when it delivers nothing; the list ends when the deadline has passed.
Returns the buffer and the return value. -/
def read_line_loop (max_len : Int) : List (Option Nat) → List Nat → Nat → List Nat × Int
  | [], buffer, pos => (buffer.set pos 0, -1)
  | none :: polls, buffer, pos => read_line_loop max_len polls buffer pos
  | some c :: polls, buffer, pos =>
      if c = 10 then
        if 0 < pos ∧ (buffer.set pos 0)[pos - 1]? = some 13 then
          ((buffer.set pos 0).set (pos - 1) 0, (pos : Int) - 1)
        else (buffer.set pos 0, (pos : Int))
      else if (pos : Int) < max_len - 1 then
        read_line_loop max_len polls (buffer.set pos c) (pos + 1)
      else read_line_loop max_len polls buffer pos

/-- Function `int read_line_with_timeout(char *buffer, int max_len, uint32_t timeout_ms)`; the
deadline is represented by the end of `polls`. -/
def read_line_with_timeout (buffer : List Nat) (max_len : Int) (polls : List (Option Nat)) :
    List Nat × Int :=
  read_line_loop max_len polls buffer 0

/-! ## The state machine of `main` -/

/-- Type `app_state_t`, in the declared order. -/
inductive app_state_t where
  | STATE_WAIT_FOR_BUTTON
  | STATE_SEND_AT
  | STATE_WAIT_AT_RESPONSE
  | STATE_SEND_VERSION
  | STATE_WAIT_VERSION_RESPONSE
  | STATE_SEND_DEVEUI
  | STATE_WAIT_DEVEUI_RESPONSE
  | STATE_PROCESS_DEVEUI
  deriving DecidableEq, Repr

open app_state_t

/-- The local variables of `main` that live across iterations of `while (true)`. -/
structure Machine where
  state : app_state_t
  rx_line_buffer : List Nat
  at_retries : Int
  read_len : Int
  deriving DecidableEq, Repr

/-- What the environment supplies during one iteration of `while (true)`:
`gpio` is the value of the first `gpio_get(button)` (the pin is pulled up, so `false`
means pressed), `release` the values seen by `while (!gpio_get(button))`, and `polls`
what `read_line_with_timeout` sees. -/
structure Input where
  gpio : Bool
  release : List Bool
  polls : List (Option Nat)
  deriving DecidableEq, Repr

/-- Whether `while (!gpio_get(button)) sleep_ms(10);` ends within the given samples. -/
def button_released : List Bool → Bool
  | [] => false
  | level :: samples => if !level then button_released samples else true

/-- The state of `main` when the loop is entered; the contents of the receive buffer
are not initialised by the source. -/
def initial (buffer : List Nat) : Machine :=
  { state := STATE_WAIT_FOR_BUTTON, rx_line_buffer := buffer, at_retries := 0, read_len := 0 }

/-- One iteration of `while (true) { switch (state) ... }`: the next machine and the
events of the iteration.  `none` when the iteration does not run to its end on the given
input (the button is not released within `release`, or `process_deveui` reads outside
the buffer). -/
def step (m : Machine) (inp : Input) : Option (Machine × List Event) :=
  match m.state with
  | STATE_WAIT_FOR_BUTTON =>
      if !inp.gpio then
        if button_released inp.release then
          some ({ m with at_retries := 0, state := STATE_SEND_AT },
            [Event.printf "Button pressed\r\n" []])
        else none
      else some (m, [])
  | STATE_SEND_AT =>
      if m.at_retries ≥ MAX_AT_RETRIES then
        some ({ m with state := STATE_WAIT_FOR_BUTTON },
          [Event.printf "module not responding\r\n" []])
      else
        some ({ m with at_retries := m.at_retries + 1, state := STATE_WAIT_AT_RESPONSE },
          [Event.printf "Sending 'AT',(try %d / %d...)\r\n"
              [Arg.d m.at_retries, Arg.d MAX_AT_RETRIES],
           Event.iuart_send "AT\r\n"])
  | STATE_WAIT_AT_RESPONSE =>
      let r := read_line_with_timeout m.rx_line_buffer RX_BUFFER_SIZE inp.polls
      if r.2 < 0 then
        some ({ m with rx_line_buffer := r.1, read_len := r.2, state := STATE_SEND_AT },
          [Event.printf "Timeout\r\n" []])
      else if (strstr (c_str r.1) (bytes "OK")).isSome then
        some ({ m with rx_line_buffer := r.1, read_len := r.2, state := STATE_SEND_VERSION },
          [Event.printf "%s\r\n" [Arg.s (c_str r.1)],
           Event.printf "----------------\r\n" [],
           Event.printf "Connected to LoRa module\r\n" [],
           Event.printf "----------------\r\n" []])
      else
        some ({ m with rx_line_buffer := r.1, read_len := r.2 },
          [Event.printf "%s\r\n" [Arg.s (c_str r.1)],
           Event.printf "----------------\r\n" []])
  | STATE_SEND_VERSION =>
      some ({ m with state := STATE_WAIT_VERSION_RESPONSE },
        [Event.printf "Sending 'AT+VER'.....\r\n" [],
         Event.printf "----------------\r\n" [],
         Event.iuart_send "AT+VER\r\n"])
  | STATE_WAIT_VERSION_RESPONSE =>
      let r := read_line_with_timeout m.rx_line_buffer RX_BUFFER_SIZE inp.polls
      if r.2 < 0 then
        some ({ m with rx_line_buffer := r.1, read_len := r.2,
                       state := STATE_WAIT_FOR_BUTTON },
          [Event.printf "Module stopped responding...\r\n" []])
      else if (strstr (c_str r.1) (bytes "+VER")).isSome then
        some ({ m with rx_line_buffer := r.1, read_len := r.2, state := STATE_SEND_DEVEUI },
          [Event.printf "%s\r\n" [Arg.s (c_str r.1)],
           Event.printf "----------------\r\n" [],
           Event.printf "Firmware version %s\r\n" [Arg.s (c_str r.1)]])
      else
        some ({ m with rx_line_buffer := r.1, read_len := r.2 },
          [Event.printf "%s\r\n" [Arg.s (c_str r.1)],
           Event.printf "----------------\r\n" []])
  | STATE_SEND_DEVEUI =>
      some ({ m with state := STATE_WAIT_DEVEUI_RESPONSE },
        [Event.printf "Sending 'AT+ID=DevEui'.....\r\n" [],
         Event.printf "----------------\r\n" [],
         Event.iuart_send "AT+ID=DevEui\r\n"])
  | STATE_WAIT_DEVEUI_RESPONSE =>
      let r := read_line_with_timeout m.rx_line_buffer RX_BUFFER_SIZE inp.polls
      if r.2 < 0 then
        some ({ m with rx_line_buffer := r.1, read_len := r.2,
                       state := STATE_WAIT_FOR_BUTTON },
          [Event.printf "Module stopped responding...\r\n" []])
      else if (strstr (c_str r.1) (bytes "+ID: DevEui")).isSome then
        some ({ m with rx_line_buffer := r.1, read_len := r.2,
                       state := STATE_PROCESS_DEVEUI },
          [Event.printf "%s\r\n" [Arg.s (c_str r.1)],
           Event.printf "----------------\r\n" []])
      else
        some ({ m with rx_line_buffer := r.1, read_len := r.2 }, [])
  | STATE_PROCESS_DEVEUI =>
      (process_deveui m.rx_line_buffer).map (fun evs =>
        ({ m with state := STATE_WAIT_FOR_BUTTON },
          Event.printf "Processing DevEui....\r\n" [] :: evs))

/-- Successive iterations of the loop, one per input: the machine reached and all events
in order; `none` when some iteration does not run to its end. -/
def exec : Machine → List Input → Option (Machine × List Event)
  | m, [] => some (m, [])
  | m, inp :: rest =>
      match step m inp with
      | none => none
      | some (m', evs) => (exec m' rest).map (fun r => (r.1, evs ++ r.2))

/-- The stage held after each iteration of a run, in order. -/
def stages : Machine → List Input → List app_state_t
  | _, [] => []
  | m, inp :: rest =>
      match step m inp with
      | none => []
      | some (m', _) => m'.state :: stages m' rest

/-! ## Vocabulary of the specification -/

/-- The reference normalisation of a reply line, as the specification words it: the
characters from two positions after the first `,` to the end of the line, with every
`:` deleted and the rest put in lower case, cut to `DEVEUI_LENGTH - 1` characters. -/
def identity_reference (line : List Nat) : List Nat :=
  (((line.drop (line.indexOf 44 + 2)).filter (fun c => c != 58)).map tolower).take
    (DEVEUI_LENGTH - 1)

/-- The ASCII code of the hexadecimal digit `d`, with `A`..`F` when `upper` is set and
`a`..`f` otherwise. -/
def hexDigit (upper : Bool) (d : Nat) : Nat :=
  if d < 10 then 48 + d else if upper then 55 + d else 87 + d

/-- The text `HH:HH:...:HH` of a byte sequence; `cases` chooses the letter case of each
of the two digits of each byte. -/
def euiText : List (Bool × Bool) → List Nat → List Nat
  | c :: cases, b :: b' :: bs =>
      hexDigit c.1 (b / 16) :: hexDigit c.2 (b % 16) :: 58 :: euiText cases (b' :: bs)
  | c :: _, [b] => [hexDigit c.1 (b / 16), hexDigit c.2 (b % 16)]
  | _, _ => []

/-- The hexadecimal digits of a byte sequence in lower case, without separators. -/
def euiLower : List Nat → List Nat
  | [] => []
  | b :: bs => hexDigit false (b / 16) :: hexDigit false (b % 16) :: euiLower bs

/-- The texts handed to `iuart_send` in a trace, in order. -/
def sent : List Event → List String
  | [] => []
  | Event.iuart_send text :: tr => text :: sent tr
  | Event.printf _ _ :: tr => sent tr

/-- Effect of one event on the number of probes of the current run: the report of a
button press starts a run, a transmitted `AT` is a probe. -/
def count_probe (n : Nat) : Event → Nat
  | Event.printf fmt _ => if fmt = "Button pressed\r\n" then 0 else n
  | Event.iuart_send text => if text = "AT\r\n" then n + 1 else n

/-- The number of `AT` probes transmitted since the last button press of a trace. -/
def probes_since_trigger (tr : List Event) : Nat := tr.foldl count_probe 0

/-- The number of probe timeouts reported in a trace before the first report of
`module not responding`. -/
def timeouts_before_abort (tr : List Event) : Nat :=
  (tr.takeWhile (fun e => e != Event.printf "module not responding\r\n" [])).count
    (Event.printf "Timeout\r\n" [])

/-- The token that the reply awaited in a stage has to contain; `none` for the stages
that do not wait for a reply. -/
def expected_token : app_state_t → Option String
  | STATE_WAIT_AT_RESPONSE => some "OK"
  | STATE_WAIT_VERSION_RESPONSE => some "+VER"
  | STATE_WAIT_DEVEUI_RESPONSE => some "+ID: DevEui"
  | _ => none

/-- An input whose receive window delivers the bytes of `text` one per iteration (after
one idle iteration) and nothing more; the button is at rest. -/
def reply (text : String) : Input :=
  { gpio := true, release := [], polls := none :: (bytes text).map some }

/-- An input with the button pressed and then released, and a silent receive window. -/
def press : Input := { gpio := false, release := [false, false, true], polls := [] }

/-- An input with the button at rest and nothing received before the deadline. -/
def silence : Input := { gpio := true, release := [], polls := [none, none] }

/-- A receive buffer of `RX_BUFFER_SIZE` zero bytes. -/
def blank_buffer : List Nat := List.replicate RX_BUFFER_SIZE 0

/-- A press of the button followed by iterations in which nothing is ever received. -/
def exhaustion_inputs : List Input := press :: List.replicate 11 silence

/-- The stage that follows a stage in the declared order of `app_state_t`; the last one
has none. -/
def following : app_state_t → Option app_state_t
  | STATE_WAIT_FOR_BUTTON => some STATE_SEND_AT
  | STATE_SEND_AT => some STATE_WAIT_AT_RESPONSE
  | STATE_WAIT_AT_RESPONSE => some STATE_SEND_VERSION
  | STATE_SEND_VERSION => some STATE_WAIT_VERSION_RESPONSE
  | STATE_WAIT_VERSION_RESPONSE => some STATE_SEND_DEVEUI
  | STATE_SEND_DEVEUI => some STATE_WAIT_DEVEUI_RESPONSE
  | STATE_WAIT_DEVEUI_RESPONSE => some STATE_PROCESS_DEVEUI
  | STATE_PROCESS_DEVEUI => none

/-- The inputs of a run in which the module answers each command at once:
a press, then `OK`, `+VER 1.0` and the identity line `identity`, each ended by CR LF. -/
def answered_inputs (identity : String) : List Input :=
  [press, silence, reply "OK\r\n", silence, reply "+VER 1.0\r\n", silence,
   reply (identity ++ "\r\n"), silence]

/-! ## Instrumented loops: the indices that are read and written -/

/-- The buffer indices written by the loop of `read_line_with_timeout`, in order.  The
function follows `read_line_loop` branch by branch: `buffer[pos] = 0` at the deadline,
`buffer[pos] = 0` and possibly `buffer[pos - 1] = 0` at a line feed, `buffer[pos++] = c`
for a stored byte, and nothing for a byte that is dropped. -/
def read_line_loop_writes (max_len : Int) : List (Option Nat) → List Nat → Nat → List Nat
  | [], _, pos => [pos]
  | none :: polls, buffer, pos => read_line_loop_writes max_len polls buffer pos
  | some c :: polls, buffer, pos =>
      if c = 10 then
        if 0 < pos ∧ (buffer.set pos 0)[pos - 1]? = some 13 then [pos, pos - 1]
        else [pos]
      else if (pos : Int) < max_len - 1 then
        pos :: read_line_loop_writes max_len polls (buffer.set pos c) (pos + 1)
      else read_line_loop_writes max_len polls buffer pos

/-- The buffer indices written by `read_line_with_timeout`, in order. -/
def read_line_writes (buffer : List Nat) (max_len : Int) (polls : List (Option Nat)) :
    List Nat :=
  read_line_loop_writes max_len polls buffer 0

/-- The indices of `s` read by the `for` loop of `process_deveui`, in order.  The first
argument is the memory from `start_deveui[i]` on, `idx` the index of its first byte in
`s`, `pos` the number of bytes stored.  Every iteration reads `start_deveui[i]` in the
loop condition; a read outside the object is listed too and ends the list. -/
def deveui_loop_reads : List Nat → Nat → Nat → List Nat
  | [], idx, _ => [idx]
  | c :: mem, idx, pos =>
      if c ≠ 0 ∧ pos < DEVEUI_LENGTH - 1 then
        if c ≠ 58 then idx :: deveui_loop_reads mem (idx + 1) (pos + 1)
        else idx :: deveui_loop_reads mem (idx + 1) pos
      else [idx]

/-- The indices of `s` read by `process_deveui` after the call of `strstr` (which stays
within the C string and its terminator): none when no `,` is found, otherwise those of the
loop, which starts at `start_deveui = strstr(s, ",") + 2`. -/
def process_deveui_reads (s : List Nat) : List Nat :=
  match strstr (c_str s) (bytes ",") with
  | none => []
  | some k => deveui_loop_reads (s.drop (k + 2)) (k + 2) 0

/-! ## Vocabulary of the specification: received lines -/

/-- The bytes delivered by `iuart_read` during a receive window, in order. -/
def received_bytes (polls : List (Option Nat)) : List Nat := polls.filterMap id

/-- The bytes received before the first line feed. -/
def before_line_feed (polls : List (Option Nat)) : List Nat :=
  (received_bytes polls).takeWhile (fun c => c != 10)

/-- A list of bytes without its last byte when that byte is a carriage return. -/
def strip_cr (line : List Nat) : List Nat :=
  if line.getLast? = some 13 then line.dropLast else line

/-- The line that the specification expects in the buffer: the bytes received before the
first line feed, cut to the first `max_len - 1`, without one trailing carriage return. -/
def expected_line (max_len : Int) (polls : List (Option Nat)) : List Nat :=
  strip_cr ((before_line_feed polls).take (max_len - 1).toNat)

end Lab4

/-!
# Lab5, exercise 1: LED state kept in the EEPROM

Shallow embedding of `src/Lab5-ex1/main.c`.

* Values of type `uint8_t` and `uint64_t` are natural numbers, reduced modulo `2^8` and
  `2^64` where the source can leave the range.
* The EEPROM is a map from addresses to bytes.  `i2c_write_blocking` with a two-byte address
  followed by data stores the data at that address and the following ones;
  `i2c_read_blocking` after an address write returns the bytes stored there.
* The globals written by the interrupt handler are a record passed to `gpio_callback`
  together with the value returned by `time_us_64()`.
-/

namespace Lab5

/-- Size of the EEPROM in bytes: `#define MAX_EEPROM_ADDR 32*1024`. -/
def MAX_EEPROM_ADDR : Nat := 32 * 1024

/-- GPIO of switch 0: `#define SW0_GPIO 9`. -/
def SW0_GPIO : Nat := 9

/-- GPIO of switch 1: `#define SW1_GPIO 8`. -/
def SW1_GPIO : Nat := 8

/-- GPIO of switch 2: `#define SW2_GPIO 7`. -/
def SW2_GPIO : Nat := 7

/-- Mask of LED 0: `#define LED_BIT_0 (1 << 0)`. -/
def LED_BIT_0 : Nat := 1 <<< 0

/-- Mask of LED 1: `#define LED_BIT_1 (1 << 1)`. -/
def LED_BIT_1 : Nat := 1 <<< 1

/-- Mask of LED 2: `#define LED_BIT_2 (1 << 2)`. -/
def LED_BIT_2 : Nat := 1 <<< 2

/-- Default LED state: `#define DEFAULT_STATE LED_BIT_1`. -/
def DEFAULT_STATE : Nat := LED_BIT_1

/-- The record `struct ledstate` of two `uint8_t` fields. -/
structure ledstate where
  state : Nat
  not_state : Nat
  deriving DecidableEq, Repr

/-- Address of the stored record: `#define STORE_ADDR (MAX_EEPROM_ADDR-sizeof(ledstate))`,
with `sizeof(ledstate) = 2`. -/
def STORE_ADDR : Nat := MAX_EEPROM_ADDR - 2

/-- The value of `(uint8_t) ~v` for a `uint8_t` `v`: `v` is promoted to `int`, `~v` is
`-v - 1`, and the conversion to `uint8_t` reduces it modulo 256. -/
def not_u8 (v : Nat) : Nat := ((-(v : Int) - 1) % 256).toNat

/-- Function `void set_led_state(ledstate *ls, uint8_t value)`. -/
def set_led_state (ls : ledstate) (value : Nat) : ledstate :=
  { ls with state := value, not_state := not_u8 value }

/-- Function `bool led_state_is_valid(ledstate *ls)`. -/
def led_state_is_valid (ls : ledstate) : Bool :=
  ls.state == not_u8 ls.not_state

/-- Contents of the EEPROM: the byte stored at each address. -/
abbrev Eeprom := Nat → Nat

/-- The address that the device decodes from the two address bytes
`(uint8_t)(addr >> 8)` and `(uint8_t)(addr & 0xFF)`, high byte first. -/
def device_address (addr : Nat) : Nat :=
  ((addr >>> 8) % 256) * 256 + (addr &&& 0xFF) % 256

/-- Function `void eeprom_write_ledstate(uint16_t addr, ledstate *ls)`: one I2C write of the
address bytes followed by `state` and `not_state`. -/
def eeprom_write_ledstate (mem : Eeprom) (addr : Nat) (ls : ledstate) : Eeprom :=
  fun a =>
    if a = device_address addr then ls.state
    else if a = device_address addr + 1 then ls.not_state
    else mem a

/-- Function `void eeprom_read_ledstate(uint16_t addr, ledstate *ls)`: an address write
followed by a read of `sizeof(ledstate)` bytes into the record. -/
def eeprom_read_ledstate (mem : Eeprom) (addr : Nat) : ledstate :=
  { state := mem (device_address addr), not_state := mem (device_address addr + 1) }

/-- Function `void update_leds(uint8_t state)`: the levels put on `LED0`, `LED1`, `LED2`. -/
def update_leds (state : Nat) : Nat × Nat × Nat :=
  ((state >>> 0) &&& 1, (state >>> 1) &&& 1, (state >>> 2) &&& 1)

/-- What `main` has established when it enters its loop. -/
structure Startup where
  current_leds : Nat
  eeprom : Eeprom
  leds : Nat × Nat × Nat

/-- The start-up part of `main` from `ledstate ledstate;` to `update_leds(current_leds);`.
`local_record` is the content of the local variable `ledstate`, which the source does not
initialise; `mem` is the content of the EEPROM at power-up. -/
def main_startup (mem : Eeprom) (local_record : ledstate) : Startup :=
  let mem1 := eeprom_write_ledstate mem STORE_ADDR local_record
  if led_state_is_valid local_record then
    { current_leds := local_record.state, eeprom := mem1,
      leds := update_leds local_record.state }
  else
    { current_leds := DEFAULT_STATE,
      eeprom := eeprom_write_ledstate mem1 STORE_ADDR (set_led_state local_record DEFAULT_STATE),
      leds := update_leds DEFAULT_STATE }

/-- The globals `current_leds`, `state_changed` and `last_interrupt_time`. -/
structure Globals where
  current_leds : Nat
  state_changed : Bool
  last_interrupt_time : Nat
  deriving DecidableEq, Repr

/-- Function `void gpio_callback(uint gpio, uint32_t events)`; `current_time` is the value
returned by `time_us_64()`.  The difference of the two `uint64_t` times is taken modulo
`2^64`, and the result of `^=` is converted back to `uint8_t`. -/
def gpio_callback (g : Globals) (gpio : Nat) (_events : Nat) (current_time : Nat) : Globals :=
  if (current_time + 2 ^ 64 - g.last_interrupt_time) % 2 ^ 64 < 500000 then g
  else
    let toggle_bit :=
      if gpio = SW0_GPIO then LED_BIT_0
      else if gpio = SW1_GPIO then LED_BIT_1
      else if gpio = SW2_GPIO then LED_BIT_2
      else 0
    if toggle_bit ≠ 0 then
      { current_leds := (g.current_leds ^^^ toggle_bit) % 256, state_changed := true,
        last_interrupt_time := current_time }
    else { g with last_interrupt_time := current_time }

/-- A stored record as a previous run leaves it: the state `v` and its complement. -/
def stored_record (mem : Eeprom) (v : Nat) : Eeprom :=
  eeprom_write_ledstate mem STORE_ADDR (set_led_state { state := 0, not_state := 0 } v)

/-- An EEPROM filled with `0xFF`, the erased state. -/
def erased : Eeprom := fun _ => 255

/-- All records of two bytes, `state` major. -/
def all_records : List ledstate :=
  (List.range 256).flatMap (fun s => (List.range 256).map (fun n => { state := s, not_state := n }))

/-- The records that `led_state_is_valid` accepts. -/
def valid_records : List ledstate := all_records.filter led_state_is_valid

end Lab5

/-! # Theorems -/

namespace Lab4
open app_state_t


/-! ## C strings -/

theorem c_str_append_nul (line rest : List Nat) (h0 : 0 ∉ line) :
    c_str (line ++ 0 :: rest) = line := by
  induction line with
  | nil => simp [c_str]
  | cons c line ih =>
      have hc : c ≠ 0 := fun h => h0 (by simp [h])
      have hl : 0 ∉ line := fun h => h0 (by simp [h])
      have := ih hl
      simp only [c_str] at this ⊢
      simp [List.takeWhile_cons, hc, this]

theorem strstr_single (c : Nat) (hay : List Nat) :
    strstr hay [c] = if c ∈ hay then some (hay.indexOf c) else none := by
  induction hay with
  | nil => simp [strstr]
  | cons x hay ih =>
      by_cases hx : c = x
      · subst hx
        simp [strstr, List.isPrefixOf]
      · have hx' : ¬ x = c := fun h => hx h.symm
        simp [strstr, List.isPrefixOf, hx, ih, List.indexOf_cons_ne _ hx']

theorem bytes_comma : bytes "," = [44] := by decide

/-! ## The copy loop of `process_deveui` -/

theorem deveui_loop_line (line rest : List Nat) (h0 : 0 ∉ line) (out : List Nat)
    (hout : out.length ≤ DEVEUI_LENGTH - 1) :
    deveui_loop (line ++ 0 :: rest) out =
      some (out ++ ((line.filter (fun c => c != 58)).map tolower).take
        (DEVEUI_LENGTH - 1 - out.length)) := by
  induction line generalizing out with
  | nil => simp [deveui_loop]
  | cons c line ih =>
      have hc : c ≠ 0 := fun h => h0 (by simp [h])
      have hl : 0 ∉ line := fun h => h0 (by simp [h])
      by_cases hfull : out.length < DEVEUI_LENGTH - 1
      · by_cases hcolon : c = 58
        · subst hcolon
          simp [deveui_loop, hfull, ih hl out hout]
        · have hlen : (out ++ [tolower c]).length ≤ DEVEUI_LENGTH - 1 := by
            simp; omega
          have hsub : DEVEUI_LENGTH - 1 - out.length
              = (DEVEUI_LENGTH - 1 - (out.length + 1)) + 1 := by omega
          simp [deveui_loop, hc, hfull, hcolon, ih hl _ hlen]
          rw [hsub, List.take_succ_cons]
      · have hz : DEVEUI_LENGTH - 1 - out.length = 0 := by omega
        simp [deveui_loop, hc, hfull, hz]


theorem deveui_loop_shape (mem out r : List Nat) (h : deveui_loop mem out = some r)
    (hlen : out.length ≤ DEVEUI_LENGTH - 1) (hcolon : 58 ∉ out)
    (hupper : ∀ c ∈ out, ¬ (65 ≤ c ∧ c ≤ 90)) :
    r.length ≤ DEVEUI_LENGTH - 1 ∧ 58 ∉ r ∧ ∀ c ∈ r, ¬ (65 ≤ c ∧ c ≤ 90) := by
  induction mem generalizing out with
  | nil => simp [deveui_loop] at h
  | cons c mem ih =>
      rw [deveui_loop] at h
      split at h
      · rename_i hgo
        split at h
        · rename_i hc
          refine ih (out ++ [tolower c]) h ?_ ?_ ?_
          · simp; omega
          · simp only [List.mem_append, List.mem_singleton, not_or]
            refine ⟨hcolon, ?_⟩
            unfold tolower
            split <;> omega
          · intro x hx
            simp only [List.mem_append, List.mem_singleton] at hx
            rcases hx with hx | hx
            · exact hupper x hx
            · subst hx
              unfold tolower
              split <;> omega
        · exact ih out h hlen hcolon hupper
      · simp only [Option.some.injEq] at h
        subst h
        exact ⟨hlen, hcolon, hupper⟩

/-- On a terminated line whose first `,` is followed by at least one more character,
`process_deveui` prints the reference normalisation. -/
theorem process_deveui_line (line rest : List Nat) (h0 : 0 ∉ line)
    (hcomma : line.indexOf 44 + 1 < line.length) :
    process_deveui (line ++ 0 :: rest)
      = some [Event.printf "%s\r\n" [Arg.s (identity_reference line)]] := by
  have hmem : 44 ∈ line := List.indexOf_lt_length.mp (by omega)
  have hdrop : (line ++ 0 :: rest).drop (line.indexOf 44 + 2)
      = line.drop (line.indexOf 44 + 2) ++ 0 :: rest := by
    rw [List.drop_append_of_le_length (by omega)]
  have h0d : 0 ∉ line.drop (line.indexOf 44 + 2) := fun h => h0 (List.mem_of_mem_drop h)
  unfold process_deveui
  rw [if_pos (by simp), c_str_append_nul line rest h0, bytes_comma, strstr_single,
    if_pos hmem]
  simp only [hdrop, deveui_loop_line _ rest h0d [] (by simp [DEVEUI_LENGTH])]
  simp [identity_reference]

/-- On a terminated line without `,`, `process_deveui` prints the format error only. -/
theorem process_deveui_without_comma (line rest : List Nat) (h0 : 0 ∉ line)
    (hcomma : 44 ∉ line) :
    process_deveui (line ++ 0 :: rest) = some [Event.printf "Wrong DevEui format.\n" []] := by
  unfold process_deveui
  rw [if_pos (by simp), c_str_append_nul line rest h0, bytes_comma, strstr_single,
    if_neg hcomma]


theorem bytes_comma_space : bytes ", " = [44, 32] := by decide

theorem tolower_hexDigit (u : Bool) (d : Nat) (hd : d < 16) :
    tolower (hexDigit u d) = hexDigit false d := by
  unfold tolower hexDigit
  cases u <;> simp only [Bool.false_eq_true, if_true, if_false] <;> split_ifs <;> omega

theorem hexDigit_ne (u : Bool) (d : Nat) (hd : d < 16) :
    hexDigit u d ≠ 0 ∧ hexDigit u d ≠ 58 := by
  cases u <;> simp only [hexDigit] <;> split <;> simp <;> omega

theorem euiText_normal (cs : List (Bool × Bool)) (bs : List Nat)
    (hlen : bs.length ≤ cs.length) (hb : ∀ b ∈ bs, b < 256) :
    ((euiText cs bs).filter (fun c => c != 58)).map tolower = euiLower bs
      ∧ 0 ∉ euiText cs bs := by
  induction cs generalizing bs with
  | nil =>
      cases bs with
      | nil => simp [euiText, euiLower]
      | cons b bs => simp at hlen
  | cons c cs ih =>
      match bs, hlen, hb with
      | [], _, _ => simp [euiText, euiLower]
      | [b], _, hb =>
          have hb256 : b < 256 := hb b (by simp)
          have h1 := hexDigit_ne c.1 (b / 16) (by omega)
          have h2 := hexDigit_ne c.2 (b % 16) (by omega)
          have t1 := tolower_hexDigit c.1 (b / 16) (by omega)
          have t2 := tolower_hexDigit c.2 (b % 16) (by omega)
          simp [euiText, euiLower, h1.1, h1.2, h2.1, h2.2, t1, t2, Ne.symm h1.1, Ne.symm h2.1]
      | b :: b' :: bs, hlen, hb =>
          have hb256 : b < 256 := hb b (by simp)
          have h1 := hexDigit_ne c.1 (b / 16) (by omega)
          have h2 := hexDigit_ne c.2 (b % 16) (by omega)
          have t1 := tolower_hexDigit c.1 (b / 16) (by omega)
          have t2 := tolower_hexDigit c.2 (b % 16) (by omega)
          have hrec := ih (b' :: bs) (by simpa using hlen)
            (fun x hx => hb x (List.mem_cons_of_mem _ hx))
          simp [euiText, euiLower, h1.1, h1.2, h2.1, h2.2, t1, t2, hrec.1, hrec.2,
            Ne.symm h1.1, Ne.symm h2.1]

theorem euiLower_length (bs : List Nat) : (euiLower bs).length = 2 * bs.length := by
  induction bs with
  | nil => rfl
  | cons b bs ih => simp [euiLower, ih]; omega

/-- Claim C1. For every sequence of 8 bytes, a terminated line `<pre>, HH:HH:HH:HH:HH:HH:HH:HH`
(no `,` in `pre`, one space after the comma, every byte as two hexadecimal digits of either
letter case, separated by colons) makes `process_deveui` print exactly the 16 hexadecimal
digits of those bytes, in order, in lower case and without colons. -/
theorem process_deveui_eui (pre rest bs : List Nat) (cs : List (Bool × Bool))
    (hpre : 44 ∉ pre) (hpre0 : 0 ∉ pre) (hbs : bs.length = 8) (hcs : cs.length = 8)
    (hb : ∀ b ∈ bs, b < 256) :
    process_deveui (pre ++ bytes ", " ++ euiText cs bs ++ 0 :: rest)
      = some [Event.printf "%s\r\n" [Arg.s (euiLower bs)]] := by
  have hnorm := euiText_normal cs bs (by omega) hb
  have hidx : (pre ++ bytes ", " ++ euiText cs bs).indexOf 44 = pre.length := by
    rw [bytes_comma_space, List.append_assoc, List.indexOf_append_of_not_mem hpre]
    simp
  have h0 : 0 ∉ pre ++ bytes ", " ++ euiText cs bs := by
    simp [bytes_comma_space, hpre0, hnorm.2]
  have hline := process_deveui_line (pre ++ bytes ", " ++ euiText cs bs) rest h0
    (by rw [hidx]; simp [bytes_comma_space])
  rw [hline]
  have hdrop : (pre ++ bytes ", " ++ euiText cs bs).drop (pre.length + 2)
      = euiText cs bs := by
    rw [bytes_comma_space, List.append_assoc, List.drop_append_eq_append_drop]
    simp
  have htake : (euiLower bs).take (DEVEUI_LENGTH - 1) = euiLower bs :=
    List.take_of_length_le (by rw [euiLower_length, hbs]; decide)
  simp only [identity_reference, hidx, hdrop, hnorm.1, htake]

/-- Witness of C1 and its worked instance: `+ID: DevEui, 2C:F7:F1:20:42:00:7B:92` gives
`2cf7f12042007b92`. -/
theorem process_deveui_eui_witness :
    process_deveui (bytes "+ID: DevEui, 2C:F7:F1:20:42:00:7B:92" ++ [0])
      = some [Event.printf "%s\r\n" [Arg.s (bytes "2cf7f12042007b92")]] :=
  process_deveui_eui (bytes "+ID: DevEui") [] [0x2C, 0xF7, 0xF1, 0x20, 0x42, 0x00, 0x7B, 0x92]
    (List.replicate 8 (true, true)) (by decide) (by decide) (by decide) (by decide)
    (by decide)

/-- Claim C2. A terminated line without any `,` makes `process_deveui` print the format error
`Wrong DevEui format.` and nothing else: no identity, whole, partial or empty. -/
theorem process_deveui_no_comma (line rest : List Nat) (h0 : 0 ∉ line) (hcomma : 44 ∉ line) :
    process_deveui (line ++ 0 :: rest) = some [Event.printf "Wrong DevEui format.\n" []] :=
  process_deveui_without_comma line rest h0 hcomma

/-- Witness of C2: a reply `+ID: DevEui 2C:F7` without separator. -/
theorem process_deveui_no_comma_witness :
    process_deveui (bytes "+ID: DevEui 2C:F7" ++ 0 :: bytes "stale")
      = some [Event.printf "Wrong DevEui format.\n" []] :=
  process_deveui_no_comma (bytes "+ID: DevEui 2C:F7") (bytes "stale") (by decide) (by decide)

/-- Claim C3. On every terminated line that has a `,` followed by at least one more character,
the identity printed by `process_deveui` is the reference normalisation: the characters
from two positions after the first `,` to the end of the line, every `:` deleted, the rest
in lower case, cut to the first 16 characters. -/
theorem process_deveui_eq_reference (line rest : List Nat) (h0 : 0 ∉ line)
    (hcomma : line.indexOf 44 + 1 < line.length) :
    process_deveui (line ++ 0 :: rest)
      = some [Event.printf "%s\r\n" [Arg.s (identity_reference line)]] :=
  process_deveui_line line rest h0 hcomma

/-- Witness of C3: a line longer than the output, with mixed case and a second comma. -/
theorem process_deveui_eq_reference_witness :
    process_deveui (bytes "x,yAb:Cd:EF:01:23:45:67:89:aB:cD,Z" ++ 0 :: bytes "old")
      = some [Event.printf "%s\r\n" [Arg.s (bytes "abcdef0123456789")]] :=
  process_deveui_eq_reference (bytes "x,yAb:Cd:EF:01:23:45:67:89:aB:cD,Z") (bytes "old")
    (by decide) (by decide)

/-- Claim C4. Whenever `process_deveui` prints an identity, whatever memory it was given, that
identity has at most 16 characters, no `:` and no upper-case ASCII letter. -/
theorem process_deveui_identity_shape (s identity : List Nat)
    (h : process_deveui s = some [Event.printf "%s\r\n" [Arg.s identity]]) :
    identity.length ≤ 16 ∧ 58 ∉ identity ∧ ∀ c ∈ identity, ¬ (65 ≤ c ∧ c ≤ 90) := by
  unfold process_deveui at h
  split at h
  · split at h
    · simp at h
    · rename_i k _
      cases hloop : deveui_loop (s.drop (k + 2)) [] with
      | none => simp [hloop] at h
      | some r =>
          simp only [hloop, Option.map_some', Option.some.injEq, List.cons.injEq,
            Event.printf.injEq, Arg.s.injEq, and_true, true_and] at h
          subst h
          exact deveui_loop_shape _ [] r hloop (by simp) (by simp) (by simp)
  · simp at h

/-- Witness of C4: an over-long upper-case reply. -/
theorem process_deveui_identity_shape_witness :
    (bytes "0123456789abcdef").length ≤ 16 ∧ 58 ∉ bytes "0123456789abcdef"
      ∧ ∀ c ∈ bytes "0123456789abcdef", ¬ (65 ≤ c ∧ c ≤ 90) :=
  process_deveui_identity_shape (bytes "+ID: DevEui, 01:23:45:67:89:AB:CD:EF:AA:BB" ++ [0])
    (bytes "0123456789abcdef") (by decide)


/-! ## `strstr` finds a text exactly when it occurs -/

theorem strstr_isSome_iff (hay needle : List Nat) :
    (strstr hay needle).isSome ↔ needle <:+: hay := by
  induction hay with
  | nil =>
      by_cases h : needle = [] <;> simp [strstr, h]
  | cons c hay ih =>
      rw [List.infix_cons_iff, ← ih, strstr]
      by_cases hp : needle.isPrefixOf (c :: hay) = true
      · simp [hp, List.isPrefixOf_iff_prefix.mp hp]
      · have hnp : ¬ needle <+: c :: hay := fun h => hp (List.isPrefixOf_iff_prefix.mpr h)
        simp [hp, hnp]

theorem strstr_eq_none_iff (hay needle : List Nat) :
    strstr hay needle = none ↔ ¬ needle <:+: hay := by
  rw [← strstr_isSome_iff]
  cases strstr hay needle <;> simp

/-! ## `read_line_with_timeout`: timeouts -/

theorem read_line_loop_timeout (max_len : Int) (polls : List (Option Nat))
    (h : some 10 ∉ polls) (buffer : List Nat) (pos : Nat) :
    (read_line_loop max_len polls buffer pos).2 = -1 := by
  induction polls generalizing buffer pos with
  | nil => simp [read_line_loop]
  | cons p polls ih =>
      have hrest : some 10 ∉ polls := fun h' => h (List.mem_cons_of_mem _ h')
      cases p with
      | none => simpa [read_line_loop] using ih hrest buffer pos
      | some c =>
          have hc : c ≠ 10 := fun hc => h (by simp [hc])
          rw [read_line_loop, if_neg hc]
          split
          · exact ih hrest _ _
          · exact ih hrest _ _

theorem read_line_timeout (buffer : List Nat) (max_len : Int) (polls : List (Option Nat))
    (h : some 10 ∉ polls) : (read_line_with_timeout buffer max_len polls).2 = -1 :=
  read_line_loop_timeout max_len polls h buffer 0


/-! ## Runs -/

theorem exec_append (m : Machine) (xs ys : List Input) :
    exec m (xs ++ ys) =
      (exec m xs).bind (fun r => (exec r.1 ys).map (fun r' => (r'.1, r.2 ++ r'.2))) := by
  induction xs generalizing m with
  | nil =>
      cases h : exec m ys <;> simp [exec, h]
  | cons x xs ih =>
      rw [List.cons_append, exec, exec]
      cases hstep : step m x with
      | none => rfl
      | some r =>
          obtain ⟨m', evs⟩ := r
          show Option.map _ (exec m' (xs ++ ys)) = Option.bind (Option.map _ (exec m' xs)) _
          rw [ih m']
          cases h1 : exec m' xs with
          | none => rfl
          | some r1 =>
              cases h2 : exec r1.1 ys with
              | none => simp [h2]
              | some r2 => simp [h2, List.append_assoc]

theorem exec_single (m : Machine) (x : Input) : exec m [x] = step m x := by
  cases h : step m x <;> simp [exec, h]

theorem process_deveui_events (s : List Nat) (evs : List Event)
    (h : process_deveui s = some evs) :
    evs = [Event.printf "Wrong DevEui format.\n" []]
      ∨ ∃ identity, evs = [Event.printf "%s\r\n" [Arg.s identity]] := by
  unfold process_deveui at h
  split at h
  · split at h
    · left; simpa using h.symm
    · rename_i k _
      cases hloop : deveui_loop (s.drop (k + 2)) [] with
      | none => simp [hloop] at h
      | some r => right; exact ⟨r, by simpa [hloop] using h.symm⟩
  · simp at h

/-- The retry counter stays within `0..MAX_AT_RETRIES` and equals the number of probes of
the current run; every iteration keeps this. -/
theorem step_probe_invariant (m m' : Machine) (inp : Input) (evs : List Event) (n : Nat)
    (hstep : step m inp = some (m', evs))
    (hinv : 0 ≤ m.at_retries ∧ m.at_retries ≤ MAX_AT_RETRIES ∧ (n : Int) = m.at_retries) :
    0 ≤ m'.at_retries ∧ m'.at_retries ≤ MAX_AT_RETRIES
      ∧ ((evs.foldl count_probe n : Nat) : Int) = m'.at_retries := by
  obtain ⟨h0, h5, hn⟩ := hinv
  unfold step at hstep
  split at hstep
  · -- STATE_WAIT_FOR_BUTTON
    split at hstep
    · split at hstep
      · simp only [Option.some.injEq, Prod.mk.injEq] at hstep
        obtain ⟨rfl, rfl⟩ := hstep
        simp [count_probe, MAX_AT_RETRIES]
      · simp at hstep
    · simp only [Option.some.injEq, Prod.mk.injEq] at hstep
      obtain ⟨rfl, rfl⟩ := hstep
      simp [h0, h5, hn]
  · -- STATE_SEND_AT
    split at hstep
    · simp only [Option.some.injEq, Prod.mk.injEq] at hstep
      obtain ⟨rfl, rfl⟩ := hstep
      simp [count_probe, h0, h5, hn]
    · rename_i hlt
      simp only [Option.some.injEq, Prod.mk.injEq] at hstep
      obtain ⟨rfl, rfl⟩ := hstep
      simp only [MAX_AT_RETRIES] at hlt h5 ⊢
      simp [count_probe]
      omega
  · -- STATE_WAIT_AT_RESPONSE
    simp only at hstep
    split at hstep
    · simp only [Option.some.injEq, Prod.mk.injEq] at hstep
      obtain ⟨rfl, rfl⟩ := hstep
      simp [count_probe, h0, h5, hn]
    · split at hstep <;>
      · simp only [Option.some.injEq, Prod.mk.injEq] at hstep
        obtain ⟨rfl, rfl⟩ := hstep
        simp [count_probe, h0, h5, hn]
  · -- STATE_SEND_VERSION
    simp only [Option.some.injEq, Prod.mk.injEq] at hstep
    obtain ⟨rfl, rfl⟩ := hstep
    simp [count_probe, h0, h5, hn]
  · -- STATE_WAIT_VERSION_RESPONSE
    simp only at hstep
    split at hstep
    · simp only [Option.some.injEq, Prod.mk.injEq] at hstep
      obtain ⟨rfl, rfl⟩ := hstep
      simp [count_probe, h0, h5, hn]
    · split at hstep <;>
      · simp only [Option.some.injEq, Prod.mk.injEq] at hstep
        obtain ⟨rfl, rfl⟩ := hstep
        simp [count_probe, h0, h5, hn]
  · -- STATE_SEND_DEVEUI
    simp only [Option.some.injEq, Prod.mk.injEq] at hstep
    obtain ⟨rfl, rfl⟩ := hstep
    simp [count_probe, h0, h5, hn]
  · -- STATE_WAIT_DEVEUI_RESPONSE
    simp only at hstep
    split at hstep
    · simp only [Option.some.injEq, Prod.mk.injEq] at hstep
      obtain ⟨rfl, rfl⟩ := hstep
      simp [count_probe, h0, h5, hn]
    · split at hstep <;>
      · simp only [Option.some.injEq, Prod.mk.injEq] at hstep
        obtain ⟨rfl, rfl⟩ := hstep
        simp [count_probe, h0, h5, hn]
  · -- STATE_PROCESS_DEVEUI
    cases hp : process_deveui m.rx_line_buffer with
    | none => simp [hp] at hstep
    | some pe =>
        simp only [hp, Option.map_some', Option.some.injEq, Prod.mk.injEq] at hstep
        obtain ⟨rfl, rfl⟩ := hstep
        rcases process_deveui_events _ _ hp with h | ⟨identity, h⟩ <;>
          simp [h, count_probe, h0, h5, hn]

theorem exec_probe_invariant (buffer : List Nat) (inputs : List Input) (m : Machine)
    (tr : List Event) (h : exec (initial buffer) inputs = some (m, tr)) :
    0 ≤ m.at_retries ∧ m.at_retries ≤ MAX_AT_RETRIES
      ∧ (probes_since_trigger tr : Int) = m.at_retries := by
  induction inputs using List.reverseRecOn generalizing m tr with
  | nil =>
      simp only [exec, Option.some.injEq, Prod.mk.injEq] at h
      obtain ⟨rfl, rfl⟩ := h
      simp [initial, probes_since_trigger, MAX_AT_RETRIES]
  | append_singleton inputs inp ih =>
      rw [exec_append] at h
      cases h1 : exec (initial buffer) inputs with
      | none => simp [h1] at h
      | some r1 =>
          obtain ⟨m1, tr1⟩ := r1
          simp only [h1, Option.some_bind, exec_single] at h
          cases h2 : step m1 inp with
          | none => simp [h2] at h
          | some r2 =>
              obtain ⟨m2, evs⟩ := r2
              simp only [h2, Option.map_some', Option.some.injEq, Prod.mk.injEq] at h
              obtain ⟨rfl, rfl⟩ := h
              have := step_probe_invariant m1 m2 inp evs (probes_since_trigger tr1) h2
                (ih m1 tr1 h1)
              simpa [probes_since_trigger, List.foldl_append] using this

theorem step_sends_probe (m m' : Machine) (inp : Input) (evs : List Event)
    (hstep : step m inp = some (m', evs)) (hsend : Event.iuart_send "AT\r\n" ∈ evs) :
    m.state = STATE_SEND_AT ∧ m.at_retries < MAX_AT_RETRIES := by
  unfold step at hstep
  split at hstep
  · split at hstep
    · split at hstep
      · simp only [Option.some.injEq, Prod.mk.injEq] at hstep
        obtain ⟨rfl, rfl⟩ := hstep
        simp at hsend
      · simp at hstep
    · simp only [Option.some.injEq, Prod.mk.injEq] at hstep
      obtain ⟨rfl, rfl⟩ := hstep
      simp at hsend
  · rename_i hst
    split at hstep
    · simp only [Option.some.injEq, Prod.mk.injEq] at hstep
      obtain ⟨rfl, rfl⟩ := hstep
      simp at hsend
    · rename_i hlt
      exact ⟨hst, by omega⟩
  · simp only at hstep
    split at hstep
    · simp only [Option.some.injEq, Prod.mk.injEq] at hstep
      obtain ⟨rfl, rfl⟩ := hstep
      simp at hsend
    · split at hstep <;>
      · simp only [Option.some.injEq, Prod.mk.injEq] at hstep
        obtain ⟨rfl, rfl⟩ := hstep
        simp at hsend
  · simp only [Option.some.injEq, Prod.mk.injEq] at hstep
    obtain ⟨rfl, rfl⟩ := hstep
    simp at hsend
  · simp only at hstep
    split at hstep
    · simp only [Option.some.injEq, Prod.mk.injEq] at hstep
      obtain ⟨rfl, rfl⟩ := hstep
      simp at hsend
    · split at hstep <;>
      · simp only [Option.some.injEq, Prod.mk.injEq] at hstep
        obtain ⟨rfl, rfl⟩ := hstep
        simp at hsend
  · simp only [Option.some.injEq, Prod.mk.injEq] at hstep
    obtain ⟨rfl, rfl⟩ := hstep
    simp at hsend
  · simp only at hstep
    split at hstep
    · simp only [Option.some.injEq, Prod.mk.injEq] at hstep
      obtain ⟨rfl, rfl⟩ := hstep
      simp at hsend
    · split at hstep <;>
      · simp only [Option.some.injEq, Prod.mk.injEq] at hstep
        obtain ⟨rfl, rfl⟩ := hstep
        simp at hsend
  · cases hp : process_deveui m.rx_line_buffer with
    | none => simp [hp] at hstep
    | some pe =>
        simp only [hp, Option.map_some', Option.some.injEq, Prod.mk.injEq] at hstep
        obtain ⟨rfl, rfl⟩ := hstep
        rcases process_deveui_events _ _ hp with h | ⟨identity, h⟩ <;>
          simp [h] at hsend


/-- Claim C5. In every state reached from `STATE_WAIT_FOR_BUTTON` with `at_retries = 0`, for any
buffer contents and any inputs, `at_retries` lies in `0..5` and equals the number of `AT`
probes sent since the last button press, so a run sends at most 5 probes; and an iteration
that transmits `AT` starts in `STATE_SEND_AT` with `at_retries < MAX_AT_RETRIES`. -/
theorem at_retries_bounded (buffer : List Nat) (inputs : List Input) (m : Machine)
    (tr : List Event) (h : exec (initial buffer) inputs = some (m, tr)) :
    0 ≤ m.at_retries ∧ m.at_retries ≤ MAX_AT_RETRIES
      ∧ (probes_since_trigger tr : Int) = m.at_retries
      ∧ probes_since_trigger tr ≤ 5
      ∧ ∀ (inp : Input) (m' : Machine) (evs : List Event), step m inp = some (m', evs) →
          Event.iuart_send "AT\r\n" ∈ evs →
          m.state = STATE_SEND_AT ∧ m.at_retries < MAX_AT_RETRIES := by
  obtain ⟨h0, h5, hn⟩ := exec_probe_invariant buffer inputs m tr h
  refine ⟨h0, h5, hn, ?_, fun inp m' evs hstep hsend => step_sends_probe m m' inp evs hstep hsend⟩
  simp only [MAX_AT_RETRIES] at h5
  omega

/-- Witness of C5: the state after a press and the first probe. -/
theorem at_retries_bounded_witness :
    (0 : Int) ≤ 1 ∧ (1 : Int) ≤ MAX_AT_RETRIES
      ∧ (probes_since_trigger
          [Event.printf "Button pressed\r\n" [],
           Event.printf "Sending 'AT',(try %d / %d...)\r\n" [Arg.d 0, Arg.d MAX_AT_RETRIES],
           Event.iuart_send "AT\r\n"] : Int) = 1 :=
  have h := at_retries_bounded blank_buffer [press, silence]
    { state := STATE_WAIT_AT_RESPONSE, rx_line_buffer := blank_buffer, at_retries := 1,
      read_len := 0 }
    [Event.printf "Button pressed\r\n" [],
     Event.printf "Sending 'AT',(try %d / %d...)\r\n" [Arg.d 0, Arg.d MAX_AT_RETRIES],
     Event.iuart_send "AT\r\n"] (by decide)
  ⟨h.1, h.2.1, h.2.2.1⟩


/-! ## Single iterations -/

theorem step_send_at_abort (m : Machine) (inp : Input) (hst : m.state = STATE_SEND_AT)
    (hge : MAX_AT_RETRIES ≤ m.at_retries) :
    step m inp = some ({ m with state := STATE_WAIT_FOR_BUTTON },
      [Event.printf "module not responding\r\n" []]) := by
  simp [step, hst, hge]

/-- The run of a trigger followed by five probe rounds that all time out. -/
theorem exec_five_timeouts (m : Machine) (t s1 w1 s2 w2 s3 w3 s4 w4 s5 w5 : Input)
    (hst : m.state = STATE_WAIT_FOR_BUTTON)
    (hgpio : t.gpio = false) (hrel : button_released t.release = true)
    (h1 : some 10 ∉ w1.polls) (h2 : some 10 ∉ w2.polls) (h3 : some 10 ∉ w3.polls)
    (h4 : some 10 ∉ w4.polls) (h5 : some 10 ∉ w5.polls) :
    (∃ m', m'.state = STATE_SEND_AT ∧ m'.at_retries = 5 ∧
      exec m [t, s1, w1, s2, w2, s3, w3, s4, w4, s5, w5] = some (m',
        [Event.printf "Button pressed\r\n" [],
         Event.printf "Sending 'AT',(try %d / %d...)\r\n" [Arg.d 0, Arg.d 5],
         Event.iuart_send "AT\r\n", Event.printf "Timeout\r\n" [],
         Event.printf "Sending 'AT',(try %d / %d...)\r\n" [Arg.d 1, Arg.d 5],
         Event.iuart_send "AT\r\n", Event.printf "Timeout\r\n" [],
         Event.printf "Sending 'AT',(try %d / %d...)\r\n" [Arg.d 2, Arg.d 5],
         Event.iuart_send "AT\r\n", Event.printf "Timeout\r\n" [],
         Event.printf "Sending 'AT',(try %d / %d...)\r\n" [Arg.d 3, Arg.d 5],
         Event.iuart_send "AT\r\n", Event.printf "Timeout\r\n" [],
         Event.printf "Sending 'AT',(try %d / %d...)\r\n" [Arg.d 4, Arg.d 5],
         Event.iuart_send "AT\r\n", Event.printf "Timeout\r\n" []]))
      ∧ stages m [t, s1, w1, s2, w2, s3, w3, s4, w4, s5, w5] =
          [STATE_SEND_AT, STATE_WAIT_AT_RESPONSE, STATE_SEND_AT, STATE_WAIT_AT_RESPONSE,
           STATE_SEND_AT, STATE_WAIT_AT_RESPONSE, STATE_SEND_AT, STATE_WAIT_AT_RESPONSE,
           STATE_SEND_AT, STATE_WAIT_AT_RESPONSE, STATE_SEND_AT] := by
  obtain ⟨st, buf, r, len⟩ := m
  simp only at hst
  subst hst
  refine ⟨?_, ?_⟩
  · simp [exec, step, hgpio, hrel, read_line_timeout _ _ _ h1, read_line_timeout _ _ _ h2,
      read_line_timeout _ _ _ h3, read_line_timeout _ _ _ h4, read_line_timeout _ _ _ h5,
      MAX_AT_RETRIES]
  · simp [stages, step, hgpio, hrel, read_line_timeout _ _ _ h1, read_line_timeout _ _ _ h2,
      read_line_timeout _ _ _ h3, read_line_timeout _ _ _ h4, read_line_timeout _ _ _ h5,
      MAX_AT_RETRIES]


theorem stages_append (m : Machine) (xs ys : List Input) :
    stages m (xs ++ ys) =
      stages m xs ++ (match exec m xs with
        | some r => stages r.1 ys
        | none => []) := by
  induction xs generalizing m with
  | nil => simp [stages, exec]
  | cons x xs ih =>
      rw [List.cons_append, stages, stages, exec]
      cases hstep : step m x with
      | none => rfl
      | some r =>
          obtain ⟨m', evs⟩ := r
          show m'.state :: stages m' (xs ++ ys) = _
          rw [ih m']
          cases h1 : exec m' xs <;> simp [h1]

theorem exec_snoc (m m1 m2 : Machine) (xs : List Input) (x : Input) (tr1 evs : List Event)
    (h1 : exec m xs = some (m1, tr1)) (h2 : step m1 x = some (m2, evs)) :
    exec m (xs ++ [x]) = some (m2, tr1 ++ evs) := by
  rw [exec_append, h1]
  simp only [Option.some_bind, exec_single, h2, Option.map_some']

/-- Claim C6. Probe exhaustion: from `STATE_WAIT_FOR_BUTTON`, a press followed by probe rounds
whose reply waits all time out (no line feed arrives before the deadline) leads, after the
5th timeout, to the report `module not responding` and back to `STATE_WAIT_FOR_BUTTON`;
exactly 5 `AT` probes and nothing else have been transmitted (so no `AT+VER`), and the
stages held are only `STATE_SEND_AT` and `STATE_WAIT_AT_RESPONSE` until the return (so
`STATE_SEND_VERSION` is never entered). -/
theorem probe_exhaustion (m : Machine) (t s1 w1 s2 w2 s3 w3 s4 w4 s5 w5 s6 : Input)
    (hst : m.state = STATE_WAIT_FOR_BUTTON)
    (hgpio : t.gpio = false) (hrel : button_released t.release = true)
    (h1 : some 10 ∉ w1.polls) (h2 : some 10 ∉ w2.polls) (h3 : some 10 ∉ w3.polls)
    (h4 : some 10 ∉ w4.polls) (h5 : some 10 ∉ w5.polls) :
    ∃ m' tr, exec m [t, s1, w1, s2, w2, s3, w3, s4, w4, s5, w5, s6] = some (m', tr)
      ∧ m'.state = STATE_WAIT_FOR_BUTTON
      ∧ sent tr = ["AT\r\n", "AT\r\n", "AT\r\n", "AT\r\n", "AT\r\n"]
      ∧ tr.count (Event.printf "Timeout\r\n" []) = 5
      ∧ tr.getLast? = some (Event.printf "module not responding\r\n" [])
      ∧ Event.iuart_send "AT+VER\r\n" ∉ tr
      ∧ stages m [t, s1, w1, s2, w2, s3, w3, s4, w4, s5, w5, s6] =
          [STATE_SEND_AT, STATE_WAIT_AT_RESPONSE, STATE_SEND_AT, STATE_WAIT_AT_RESPONSE,
           STATE_SEND_AT, STATE_WAIT_AT_RESPONSE, STATE_SEND_AT, STATE_WAIT_AT_RESPONSE,
           STATE_SEND_AT, STATE_WAIT_AT_RESPONSE, STATE_SEND_AT, STATE_WAIT_FOR_BUTTON]
      ∧ STATE_SEND_VERSION ∉ stages m [t, s1, w1, s2, w2, s3, w3, s4, w4, s5, w5, s6] := by
  obtain ⟨⟨m11, hs11, hr11, hexec⟩, hstages⟩ :=
    exec_five_timeouts m t s1 w1 s2 w2 s3 w3 s4 w4 s5 w5 hst hgpio hrel h1 h2 h3 h4 h5
  have habort := step_send_at_abort m11 s6 hs11 (by rw [hr11]; decide)
  have hsplit : [t, s1, w1, s2, w2, s3, w3, s4, w4, s5, w5, s6]
      = [t, s1, w1, s2, w2, s3, w3, s4, w4, s5, w5] ++ [s6] := rfl
  have hst12 : stages m [t, s1, w1, s2, w2, s3, w3, s4, w4, s5, w5, s6] =
      [STATE_SEND_AT, STATE_WAIT_AT_RESPONSE, STATE_SEND_AT, STATE_WAIT_AT_RESPONSE,
       STATE_SEND_AT, STATE_WAIT_AT_RESPONSE, STATE_SEND_AT, STATE_WAIT_AT_RESPONSE,
       STATE_SEND_AT, STATE_WAIT_AT_RESPONSE, STATE_SEND_AT, STATE_WAIT_FOR_BUTTON] := by
    rw [hsplit, stages_append, hstages, hexec]
    simp [stages, habort]
  have hexec12 := exec_snoc m m11 _ _ s6 _ _ hexec habort
  rw [← hsplit] at hexec12
  refine ⟨_, _, hexec12, rfl, ?_, ?_, ?_, ?_, hst12, ?_⟩
  · simp [sent]
  · decide
  · simp
  · simp
  · rw [hst12]; decide

/-- Witness of C6: a press on a blank buffer, then silence. -/
theorem probe_exhaustion_witness :
    ∃ m' tr, exec (initial blank_buffer) exhaustion_inputs = some (m', tr)
      ∧ m'.state = STATE_WAIT_FOR_BUTTON
      ∧ sent tr = ["AT\r\n", "AT\r\n", "AT\r\n", "AT\r\n", "AT\r\n"]
      ∧ tr.count (Event.printf "Timeout\r\n" []) = 5
      ∧ tr.getLast? = some (Event.printf "module not responding\r\n" [])
      ∧ Event.iuart_send "AT+VER\r\n" ∉ tr
      ∧ stages (initial blank_buffer) exhaustion_inputs =
          [STATE_SEND_AT, STATE_WAIT_AT_RESPONSE, STATE_SEND_AT, STATE_WAIT_AT_RESPONSE,
           STATE_SEND_AT, STATE_WAIT_AT_RESPONSE, STATE_SEND_AT, STATE_WAIT_AT_RESPONSE,
           STATE_SEND_AT, STATE_WAIT_AT_RESPONSE, STATE_SEND_AT, STATE_WAIT_FOR_BUTTON]
      ∧ STATE_SEND_VERSION ∉ stages (initial blank_buffer) exhaustion_inputs :=
  probe_exhaustion (initial blank_buffer) press silence silence silence silence silence
    silence silence silence silence silence silence rfl rfl (by decide) (by decide)
    (by decide) (by decide) (by decide) (by decide)

/-- Counterexample to C7 as stated: on a blank buffer, a press followed by silence is
aborted with `module not responding` after five reported timeouts, not six. -/
theorem sixth_timeout_counterexample :
    ∃ m' tr, exec (initial blank_buffer) exhaustion_inputs = some (m', tr)
      ∧ m'.state = STATE_WAIT_FOR_BUTTON
      ∧ Event.printf "module not responding\r\n" [] ∈ tr
      ∧ timeouts_before_abort tr = 5
      ∧ timeouts_before_abort tr ≠ 6 := by
  refine ⟨_, _, rfl, ?_, ?_, ?_, ?_⟩ <;> decide

/-- Claim C7, amended. In a run in which every probe reply wait times out, the abort comes
after the 5th timeout: five timeouts are reported before `module not responding`, the
aborting iteration is the sixth one in `STATE_SEND_AT`, it starts with `at_retries = 5`,
transmits nothing and moves to `STATE_WAIT_FOR_BUTTON`. -/
theorem abort_after_fifth_timeout (m : Machine) (t s1 w1 s2 w2 s3 w3 s4 w4 s5 w5 s6 : Input)
    (hst : m.state = STATE_WAIT_FOR_BUTTON)
    (hgpio : t.gpio = false) (hrel : button_released t.release = true)
    (h1 : some 10 ∉ w1.polls) (h2 : some 10 ∉ w2.polls) (h3 : some 10 ∉ w3.polls)
    (h4 : some 10 ∉ w4.polls) (h5 : some 10 ∉ w5.polls) :
    ∃ m11 tr11 m' tr,
      exec m [t, s1, w1, s2, w2, s3, w3, s4, w4, s5, w5] = some (m11, tr11)
      ∧ m11.state = STATE_SEND_AT ∧ m11.at_retries = 5
      ∧ tr11.count (Event.printf "Timeout\r\n" []) = 5
      ∧ Event.printf "module not responding\r\n" [] ∉ tr11
      ∧ step m11 s6 = some (m', [Event.printf "module not responding\r\n" []])
      ∧ m'.state = STATE_WAIT_FOR_BUTTON
      ∧ exec m [t, s1, w1, s2, w2, s3, w3, s4, w4, s5, w5, s6] = some (m', tr)
      ∧ tr = tr11 ++ [Event.printf "module not responding\r\n" []]
      ∧ timeouts_before_abort tr = 5 := by
  obtain ⟨⟨m11, hs11, hr11, hexec⟩, -⟩ :=
    exec_five_timeouts m t s1 w1 s2 w2 s3 w3 s4 w4 s5 w5 hst hgpio hrel h1 h2 h3 h4 h5
  have habort := step_send_at_abort m11 s6 hs11 (by rw [hr11]; decide)
  have hsplit : [t, s1, w1, s2, w2, s3, w3, s4, w4, s5, w5, s6]
      = [t, s1, w1, s2, w2, s3, w3, s4, w4, s5, w5] ++ [s6] := rfl
  have hexec12 := exec_snoc m m11 _ _ s6 _ _ hexec habort
  rw [← hsplit] at hexec12
  refine ⟨m11, _, _, _, hexec, hs11, hr11, ?_, ?_, habort, rfl, hexec12, rfl, ?_⟩
  · decide
  · simp
  · decide

/-- Witness of the amended C7: the report comes right after the fifth timeout. -/
theorem abort_after_fifth_timeout_witness :
    ∃ m11 tr11 m' tr,
      exec (initial blank_buffer) (press :: List.replicate 10 silence) = some (m11, tr11)
      ∧ m11.state = STATE_SEND_AT ∧ m11.at_retries = 5
      ∧ tr11.count (Event.printf "Timeout\r\n" []) = 5
      ∧ Event.printf "module not responding\r\n" [] ∉ tr11
      ∧ step m11 silence = some (m', [Event.printf "module not responding\r\n" []])
      ∧ m'.state = STATE_WAIT_FOR_BUTTON
      ∧ exec (initial blank_buffer) exhaustion_inputs = some (m', tr)
      ∧ tr = tr11 ++ [Event.printf "module not responding\r\n" []]
      ∧ timeouts_before_abort tr = 5 :=
  abort_after_fifth_timeout (initial blank_buffer) press silence silence silence silence
    silence silence silence silence silence silence silence rfl rfl (by decide) (by decide)
    (by decide) (by decide) (by decide) (by decide)


/-- Claim C8. Timeout transitions: when `read_line_with_timeout` returns a negative value,
`STATE_WAIT_AT_RESPONSE` moves to `STATE_SEND_AT`, while `STATE_WAIT_VERSION_RESPONSE` and
`STATE_WAIT_DEVEUI_RESPONSE` move to `STATE_WAIT_FOR_BUTTON` without retry (nothing is
transmitted, `at_retries` is unchanged); in all three the stage neither stays nor advances
to the following one. -/
theorem timeout_transitions (m : Machine) (inp : Input)
    (htimeout : (read_line_with_timeout m.rx_line_buffer RX_BUFFER_SIZE inp.polls).2 < 0) :
    (m.state = STATE_WAIT_AT_RESPONSE →
        ∃ m', step m inp = some (m', [Event.printf "Timeout\r\n" []])
          ∧ m'.state = STATE_SEND_AT ∧ m'.at_retries = m.at_retries)
    ∧ (m.state = STATE_WAIT_VERSION_RESPONSE ∨ m.state = STATE_WAIT_DEVEUI_RESPONSE →
        ∃ m', step m inp = some (m', [Event.printf "Module stopped responding...\r\n" []])
          ∧ m'.state = STATE_WAIT_FOR_BUTTON ∧ m'.at_retries = m.at_retries)
    ∧ (∀ token, expected_token m.state = some token →
        ∃ m' evs, step m inp = some (m', evs) ∧ sent evs = []
          ∧ m'.state ≠ m.state ∧ following m.state ≠ some m'.state) := by
  refine ⟨?_, ?_, ?_⟩
  · intro hst
    refine ⟨{ m with
      rx_line_buffer := (read_line_with_timeout m.rx_line_buffer RX_BUFFER_SIZE inp.polls).1,
      read_len := (read_line_with_timeout m.rx_line_buffer RX_BUFFER_SIZE inp.polls).2,
      state := STATE_SEND_AT }, ?_, rfl, rfl⟩
    simp only [step, hst, htimeout, if_true]
  · intro hst
    refine ⟨{ m with
      rx_line_buffer := (read_line_with_timeout m.rx_line_buffer RX_BUFFER_SIZE inp.polls).1,
      read_len := (read_line_with_timeout m.rx_line_buffer RX_BUFFER_SIZE inp.polls).2,
      state := STATE_WAIT_FOR_BUTTON }, ?_, rfl, rfl⟩
    rcases hst with hst | hst <;> simp only [step, hst, htimeout, if_true]
  · intro token htoken
    obtain ⟨st, buf, r, len⟩ := m
    cases st <;> simp only [expected_token, reduceCtorEq] at htoken <;>
      simp only [step, htimeout, if_true] <;>
      exact ⟨_, _, rfl, rfl, by simp, by simp [following]⟩

/-- Witness of C8: silence while the version reply is awaited. -/
theorem timeout_transitions_witness :
    ∃ m', step { state := STATE_WAIT_VERSION_RESPONSE, rx_line_buffer := blank_buffer,
                 at_retries := 1, read_len := 2 } silence
        = some (m', [Event.printf "Module stopped responding...\r\n" []])
      ∧ m'.state = STATE_WAIT_FOR_BUTTON ∧ m'.at_retries = 1 :=
  (timeout_transitions
    { state := STATE_WAIT_VERSION_RESPONSE, rx_line_buffer := blank_buffer,
      at_retries := 1, read_len := 2 } silence (by decide)).2.1 (Or.inl rfl)

/-- Claim C9. In each of the three stages that await a reply, a received line (no timeout)
that does not contain the token expected in that stage leaves the stage and `at_retries`
unchanged, and nothing is transmitted. -/
theorem unmatched_line_keeps_stage (m : Machine) (inp : Input) (token : String)
    (htoken : expected_token m.state = some token)
    (hline : 0 ≤ (read_line_with_timeout m.rx_line_buffer RX_BUFFER_SIZE inp.polls).2)
    (hno : ¬ bytes token <:+:
      c_str (read_line_with_timeout m.rx_line_buffer RX_BUFFER_SIZE inp.polls).1) :
    ∃ m' evs, step m inp = some (m', evs) ∧ m'.state = m.state
      ∧ m'.at_retries = m.at_retries ∧ sent evs = [] := by
  have hnone := (strstr_eq_none_iff _ _).mpr hno
  have hge := not_lt.mpr hline
  obtain ⟨st, buf, r, len⟩ := m
  cases st <;> simp only [expected_token, reduceCtorEq, Option.some.injEq] at htoken <;>
    subst htoken <;>
    simp only [step, hge, hnone, if_false, Option.isSome_none, Bool.false_eq_true] <;>
    exact ⟨_, _, rfl, rfl, rfl, rfl⟩

set_option maxRecDepth 8000 in
/-- Witness of C9: an echoed `AT` while the probe reply is awaited. -/
theorem unmatched_line_keeps_stage_witness :
    ∃ m' evs, step { state := STATE_WAIT_AT_RESPONSE, rx_line_buffer := blank_buffer,
                     at_retries := 1, read_len := 0 } (reply "AT\r\n") = some (m', evs)
      ∧ m'.state = STATE_WAIT_AT_RESPONSE ∧ m'.at_retries = 1 ∧ sent evs = [] :=
  unmatched_line_keeps_stage
    { state := STATE_WAIT_AT_RESPONSE, rx_line_buffer := blank_buffer, at_retries := 1,
      read_len := 0 } (reply "AT\r\n") "OK" rfl (by decide) (by decide)


/-! ## The terminator left by `read_line_with_timeout` -/

theorem read_line_loop_nul (max_len : Int) (polls : List (Option Nat)) (buffer : List Nat)
    (pos : Nat) (hpos : (pos : Int) ≤ max_len - 1) (hlen : max_len ≤ buffer.length) :
    0 ∈ (read_line_loop max_len polls buffer pos).1 := by
  induction polls generalizing buffer pos with
  | nil =>
      exact List.mem_set _ _ (by omega) _
  | cons p polls ih =>
      cases p with
      | none => exact ih buffer pos hpos hlen
      | some c =>
          rw [read_line_loop]
          split
          · split
            · exact List.mem_set _ _ (by simp; omega) _
            · exact List.mem_set _ _ (by omega) _
          · split
            · exact ih _ _ (by push_cast; omega) (by simpa using hlen)
            · exact ih _ _ hpos hlen

theorem read_line_nul (buffer : List Nat) (polls : List (Option Nat))
    (hlen : buffer.length = RX_BUFFER_SIZE) :
    0 ∈ (read_line_with_timeout buffer RX_BUFFER_SIZE polls).1 :=
  read_line_loop_nul _ polls buffer 0 (by simp [RX_BUFFER_SIZE]) (by simp [hlen])

theorem c_str_split (mem : List Nat) (h : 0 ∈ mem) :
    ∃ rest, mem = c_str mem ++ 0 :: rest ∧ 0 ∉ c_str mem := by
  induction mem with
  | nil => simp at h
  | cons c mem ih =>
      by_cases hc : c = 0
      · subst hc
        exact ⟨mem, by simp [c_str], by simp [c_str]⟩
      · have hmem : 0 ∈ mem := by
          rcases List.mem_cons.mp h with h | h
          · exact absurd h.symm hc
          · exact h
        obtain ⟨rest, hrest, hno⟩ := ih hmem
        have hcs : c_str (c :: mem) = c :: c_str mem := by
          simp [c_str, List.takeWhile_cons, hc]
        refine ⟨rest, ?_, ?_⟩
        · rw [hcs, List.cons_append, ← hrest]
        · rw [hcs, List.mem_cons, not_or]
          exact ⟨fun h => hc h.symm, hno⟩

/-- What `process_deveui` prints for a buffer that holds a terminated line, in the two
cases in which it stays within the line. -/
theorem process_deveui_buffer (mem : List Nat) (h0 : 0 ∈ mem)
    (hcomma : 44 ∉ c_str mem ∨ (c_str mem).indexOf 44 + 1 < (c_str mem).length) :
    process_deveui mem = some [if 44 ∈ c_str mem
      then Event.printf "%s\r\n" [Arg.s (identity_reference (c_str mem))]
      else Event.printf "Wrong DevEui format.\n" []] := by
  obtain ⟨rest, hsplit, hno⟩ := c_str_split mem h0
  rcases hcomma with hc | hc
  · rw [if_neg hc]
    have := process_deveui_without_comma (c_str mem) rest hno hc
    rw [← hsplit] at this
    exact this
  · have hmem : 44 ∈ c_str mem := List.indexOf_lt_length.mp (by omega)
    rw [if_pos hmem]
    have := process_deveui_line (c_str mem) rest hno hc
    rw [← hsplit] at this
    exact this


theorem read_line_loop_length (max_len : Int) (polls : List (Option Nat)) (buffer : List Nat)
    (pos : Nat) : (read_line_loop max_len polls buffer pos).1.length = buffer.length := by
  induction polls generalizing buffer pos with
  | nil => simp [read_line_loop]
  | cons p polls ih =>
      cases p with
      | none => exact ih buffer pos
      | some c =>
          rw [read_line_loop]
          split
          · split <;> simp
          · split
            · rw [ih]; simp
            · exact ih buffer pos

theorem read_line_length (buffer : List Nat) (max_len : Int) (polls : List (Option Nat)) :
    (read_line_with_timeout buffer max_len polls).1.length = buffer.length :=
  read_line_loop_length max_len polls buffer 0

/-- The run in which each command is answered by a line with the awaited token, up to the
call of `process_deveui`, whose output `evs` is left open. -/
theorem exec_answered (m : Machine) (t s1 w1 s2 w2 s3 w3 p : Input) (r1 r2 r3 : List Nat × Int)
    (evs : List Event)
    (hst : m.state = STATE_WAIT_FOR_BUTTON)
    (hgpio : t.gpio = false) (hrel : button_released t.release = true)
    (hr1 : r1 = read_line_with_timeout m.rx_line_buffer RX_BUFFER_SIZE w1.polls)
    (hr2 : r2 = read_line_with_timeout r1.1 RX_BUFFER_SIZE w2.polls)
    (hr3 : r3 = read_line_with_timeout r2.1 RX_BUFFER_SIZE w3.polls)
    (h1 : 0 ≤ r1.2) (hOK : bytes "OK" <:+: c_str r1.1)
    (h2 : 0 ≤ r2.2) (hVER : bytes "+VER" <:+: c_str r2.1)
    (h3 : 0 ≤ r3.2) (hID : bytes "+ID: DevEui" <:+: c_str r3.1)
    (hproc : process_deveui r3.1 = some evs) :
    exec m [t, s1, w1, s2, w2, s3, w3, p] =
      some ({ state := STATE_WAIT_FOR_BUTTON, rx_line_buffer := r3.1, at_retries := 1,
              read_len := r3.2 },
        [Event.printf "Button pressed\r\n" [],
         Event.printf "Sending 'AT',(try %d / %d...)\r\n" [Arg.d 0, Arg.d 5],
         Event.iuart_send "AT\r\n",
         Event.printf "%s\r\n" [Arg.s (c_str r1.1)],
         Event.printf "----------------\r\n" [],
         Event.printf "Connected to LoRa module\r\n" [],
         Event.printf "----------------\r\n" [],
         Event.printf "Sending 'AT+VER'.....\r\n" [],
         Event.printf "----------------\r\n" [],
         Event.iuart_send "AT+VER\r\n",
         Event.printf "%s\r\n" [Arg.s (c_str r2.1)],
         Event.printf "----------------\r\n" [],
         Event.printf "Firmware version %s\r\n" [Arg.s (c_str r2.1)],
         Event.printf "Sending 'AT+ID=DevEui'.....\r\n" [],
         Event.printf "----------------\r\n" [],
         Event.iuart_send "AT+ID=DevEui\r\n",
         Event.printf "%s\r\n" [Arg.s (c_str r3.1)],
         Event.printf "----------------\r\n" [],
         Event.printf "Processing DevEui....\r\n" []] ++ evs)
      ∧ stages m [t, s1, w1, s2, w2, s3, w3, p] =
          [STATE_SEND_AT, STATE_WAIT_AT_RESPONSE, STATE_SEND_VERSION,
           STATE_WAIT_VERSION_RESPONSE, STATE_SEND_DEVEUI, STATE_WAIT_DEVEUI_RESPONSE,
           STATE_PROCESS_DEVEUI, STATE_WAIT_FOR_BUTTON] := by
  have g1 := not_lt.mpr h1
  have g2 := not_lt.mpr h2
  have g3 := not_lt.mpr h3
  have k1 := (strstr_isSome_iff _ _).mpr hOK
  have k2 := (strstr_isSome_iff _ _).mpr hVER
  have k3 := (strstr_isSome_iff _ _).mpr hID
  obtain ⟨st, buf, r, len⟩ := m
  simp only at hst hr1
  subst hst
  subst hr1
  subst hr2
  subst hr3
  constructor
  · simp [exec, step, hgpio, hrel, g1, g2, g3, k1, k2, k3, hproc, MAX_AT_RETRIES]
  · simp [stages, step, hgpio, hrel, g1, g2, g3, k1, k2, k3, hproc, MAX_AT_RETRIES]

set_option maxRecDepth 20000 in
/-- Counterexample to C10 as stated: the module answers `OK`, `+VER 1.0` and the identity
line `+ID: DevEui` (it contains the awaited token, and no comma).  The three commands are
sent and the run ends in `STATE_WAIT_FOR_BUTTON`, but what is printed after
`Processing DevEui....` is the format error, not an identity. -/
theorem comma_free_reply_counterexample :
    ∃ m' tr, exec (initial blank_buffer) (answered_inputs "+ID: DevEui") = some (m', tr)
      ∧ m'.state = STATE_WAIT_FOR_BUTTON
      ∧ bytes "+ID: DevEui" <:+: c_str m'.rx_line_buffer
      ∧ sent tr = ["AT\r\n", "AT+VER\r\n", "AT+ID=DevEui\r\n"]
      ∧ tr.dropWhile (fun e => e != Event.printf "Processing DevEui....\r\n" [])
          = [Event.printf "Processing DevEui....\r\n" [],
             Event.printf "Wrong DevEui format.\n" []] := by
  refine ⟨_, _, rfl, ?_, ?_, ?_, ?_⟩ <;> decide

/-- Claim C10, amended. Happy path: from `STATE_WAIT_FOR_BUTTON`, after a press, when the
probe is answered by a line containing `OK`, the version query by a line containing `+VER`
and the identity query by a line containing `+ID: DevEui` (no timeouts), the machine sends
exactly `AT`, `AT+VER`, `AT+ID=DevEui` in that order, each ended by CR LF, holds the stages
in their declared order and ends in `STATE_WAIT_FOR_BUTTON`; its last output is the
reference normalisation of the identity line when that line has a `,` followed by at least
one more character, and the format error when the line has no `,`. -/
theorem happy_path (m : Machine) (t s1 w1 s2 w2 s3 w3 p : Input) (r1 r2 r3 : List Nat × Int)
    (hst : m.state = STATE_WAIT_FOR_BUTTON)
    (hbuf : m.rx_line_buffer.length = RX_BUFFER_SIZE)
    (hgpio : t.gpio = false) (hrel : button_released t.release = true)
    (hr1 : r1 = read_line_with_timeout m.rx_line_buffer RX_BUFFER_SIZE w1.polls)
    (hr2 : r2 = read_line_with_timeout r1.1 RX_BUFFER_SIZE w2.polls)
    (hr3 : r3 = read_line_with_timeout r2.1 RX_BUFFER_SIZE w3.polls)
    (h1 : 0 ≤ r1.2) (hOK : bytes "OK" <:+: c_str r1.1)
    (h2 : 0 ≤ r2.2) (hVER : bytes "+VER" <:+: c_str r2.1)
    (h3 : 0 ≤ r3.2) (hID : bytes "+ID: DevEui" <:+: c_str r3.1)
    (hcomma : 44 ∉ c_str r3.1 ∨ (c_str r3.1).indexOf 44 + 1 < (c_str r3.1).length) :
    ∃ m' tr, exec m [t, s1, w1, s2, w2, s3, w3, p] = some (m', tr)
      ∧ m'.state = STATE_WAIT_FOR_BUTTON
      ∧ sent tr = ["AT\r\n", "AT+VER\r\n", "AT+ID=DevEui\r\n"]
      ∧ stages m [t, s1, w1, s2, w2, s3, w3, p] =
          [STATE_SEND_AT, STATE_WAIT_AT_RESPONSE, STATE_SEND_VERSION,
           STATE_WAIT_VERSION_RESPONSE, STATE_SEND_DEVEUI, STATE_WAIT_DEVEUI_RESPONSE,
           STATE_PROCESS_DEVEUI, STATE_WAIT_FOR_BUTTON]
      ∧ tr.getLast? = some (if 44 ∈ c_str r3.1
          then Event.printf "%s\r\n" [Arg.s (identity_reference (c_str r3.1))]
          else Event.printf "Wrong DevEui format.\n" []) := by
  have hl1 : r1.1.length = RX_BUFFER_SIZE := by rw [hr1, read_line_length, hbuf]
  have hl2 : r2.1.length = RX_BUFFER_SIZE := by rw [hr2, read_line_length, hl1]
  have h0 : 0 ∈ r3.1 := by rw [hr3]; exact read_line_nul _ _ hl2
  have hproc := process_deveui_buffer r3.1 h0 hcomma
  obtain ⟨hexec, hstages⟩ := exec_answered m t s1 w1 s2 w2 s3 w3 p r1 r2 r3 _ hst hgpio hrel
    hr1 hr2 hr3 h1 hOK h2 hVER h3 hID hproc
  refine ⟨_, _, hexec, rfl, ?_, hstages, ?_⟩
  · by_cases hc : 44 ∈ c_str r3.1 <;> simp [sent, hc]
  · simp

set_option maxRecDepth 20000 in
/-- Witness of the amended C10 and worked instance of the claim: with the replies `OK`,
`+VER 1.0` and `+ID: DevEui, AA:BB:CC:DD:EE:FF:00:11` the identity printed is
`aabbccddeeff0011`. -/
theorem happy_path_witness :
    ∃ m' tr,
      exec (initial blank_buffer) (answered_inputs "+ID: DevEui, AA:BB:CC:DD:EE:FF:00:11")
        = some (m', tr)
      ∧ m'.state = STATE_WAIT_FOR_BUTTON
      ∧ sent tr = ["AT\r\n", "AT+VER\r\n", "AT+ID=DevEui\r\n"]
      ∧ stages (initial blank_buffer)
          (answered_inputs "+ID: DevEui, AA:BB:CC:DD:EE:FF:00:11") =
          [STATE_SEND_AT, STATE_WAIT_AT_RESPONSE, STATE_SEND_VERSION,
           STATE_WAIT_VERSION_RESPONSE, STATE_SEND_DEVEUI, STATE_WAIT_DEVEUI_RESPONSE,
           STATE_PROCESS_DEVEUI, STATE_WAIT_FOR_BUTTON]
      ∧ tr.getLast? = some (Event.printf "%s\r\n" [Arg.s (bytes "aabbccddeeff0011")]) :=
  happy_path (initial blank_buffer) press silence (reply "OK\r\n") silence
    (reply "+VER 1.0\r\n") silence (reply "+ID: DevEui, AA:BB:CC:DD:EE:FF:00:11\r\n") silence
    _ _ _ rfl (by decide) rfl (by decide) rfl rfl rfl (by decide) (by decide) (by decide)
    (by decide) (by decide) (by decide) (by decide)


/-! ## The shape of single iterations -/

/-- All the ways in which one iteration changes the stage and the retry counter. -/
theorem step_cases (m m' : Machine) (inp : Input) (evs : List Event)
    (h : step m inp = some (m', evs)) :
    (m.state = STATE_WAIT_FOR_BUTTON ∧ inp.gpio = false ∧ m'.state = STATE_SEND_AT
        ∧ m'.at_retries = 0 ∧ Event.iuart_send "AT\r\n" ∉ evs)
    ∨ (m.state = STATE_WAIT_FOR_BUTTON ∧ inp.gpio = true ∧ m' = m ∧ evs = [])
    ∨ (m.state = STATE_SEND_AT ∧ MAX_AT_RETRIES ≤ m.at_retries
        ∧ m'.state = STATE_WAIT_FOR_BUTTON ∧ m'.at_retries = m.at_retries
        ∧ Event.iuart_send "AT\r\n" ∉ evs)
    ∨ (m.state = STATE_SEND_AT ∧ m.at_retries < MAX_AT_RETRIES
        ∧ m'.state = STATE_WAIT_AT_RESPONSE ∧ m'.at_retries = m.at_retries + 1
        ∧ Event.iuart_send "AT\r\n" ∈ evs)
    ∨ (m.state = STATE_WAIT_AT_RESPONSE
        ∧ (read_line_with_timeout m.rx_line_buffer RX_BUFFER_SIZE inp.polls).2 < 0
        ∧ m'.state = STATE_SEND_AT ∧ m'.at_retries = m.at_retries
        ∧ Event.iuart_send "AT\r\n" ∉ evs)
    ∨ ((m.state = STATE_WAIT_VERSION_RESPONSE ∨ m.state = STATE_WAIT_DEVEUI_RESPONSE)
        ∧ (read_line_with_timeout m.rx_line_buffer RX_BUFFER_SIZE inp.polls).2 < 0
        ∧ m'.state = STATE_WAIT_FOR_BUTTON ∧ m'.at_retries = m.at_retries
        ∧ Event.iuart_send "AT\r\n" ∉ evs)
    ∨ ((m.state = STATE_WAIT_AT_RESPONSE ∨ m.state = STATE_WAIT_VERSION_RESPONSE
          ∨ m.state = STATE_WAIT_DEVEUI_RESPONSE)
        ∧ 0 ≤ (read_line_with_timeout m.rx_line_buffer RX_BUFFER_SIZE inp.polls).2
        ∧ (m'.state = m.state ∨ following m.state = some m'.state)
        ∧ m'.at_retries = m.at_retries ∧ Event.iuart_send "AT\r\n" ∉ evs)
    ∨ ((m.state = STATE_SEND_VERSION ∨ m.state = STATE_SEND_DEVEUI)
        ∧ following m.state = some m'.state ∧ m'.at_retries = m.at_retries
        ∧ Event.iuart_send "AT\r\n" ∉ evs)
    ∨ (m.state = STATE_PROCESS_DEVEUI ∧ m'.state = STATE_WAIT_FOR_BUTTON
        ∧ m'.at_retries = m.at_retries ∧ Event.iuart_send "AT\r\n" ∉ evs) := by
  obtain ⟨st, buf, r, len⟩ := m
  cases st
  · -- STATE_WAIT_FOR_BUTTON
    simp only [step] at h
    cases hg : inp.gpio
    · simp only [hg, Bool.not_false, if_true] at h
      split at h
      · simp only [Option.some.injEq, Prod.mk.injEq] at h
        obtain ⟨rfl, rfl⟩ := h
        left
        simp
      · simp at h
    · simp only [hg, Bool.not_true, Bool.false_eq_true, if_false, Option.some.injEq,
        Prod.mk.injEq] at h
      obtain ⟨rfl, rfl⟩ := h
      right; left
      simp
  · -- STATE_SEND_AT
    simp only [step] at h
    split at h
    · rename_i hge
      simp only [Option.some.injEq, Prod.mk.injEq] at h
      obtain ⟨rfl, rfl⟩ := h
      right; right; left
      exact ⟨rfl, hge, rfl, rfl, by simp⟩
    · rename_i hlt
      simp only [Option.some.injEq, Prod.mk.injEq] at h
      obtain ⟨rfl, rfl⟩ := h
      right; right; right; left
      exact ⟨rfl, not_le.mp hlt, rfl, rfl, by simp⟩
  · -- STATE_WAIT_AT_RESPONSE
    simp only [step] at h
    split at h
    · rename_i hto
      simp only [Option.some.injEq, Prod.mk.injEq] at h
      obtain ⟨rfl, rfl⟩ := h
      right; right; right; right; left
      exact ⟨rfl, hto, rfl, rfl, by simp⟩
    · rename_i hto
      right; right; right; right; right; right; left
      split at h <;>
      · simp only [Option.some.injEq, Prod.mk.injEq] at h
        obtain ⟨rfl, rfl⟩ := h
        exact ⟨Or.inl rfl, not_lt.mp hto, by simp [following], rfl, by simp⟩
  · -- STATE_SEND_VERSION
    simp only [step, Option.some.injEq, Prod.mk.injEq] at h
    obtain ⟨rfl, rfl⟩ := h
    right; right; right; right; right; right; right; left
    exact ⟨Or.inl rfl, rfl, rfl, by simp⟩
  · -- STATE_WAIT_VERSION_RESPONSE
    simp only [step] at h
    split at h
    · rename_i hto
      simp only [Option.some.injEq, Prod.mk.injEq] at h
      obtain ⟨rfl, rfl⟩ := h
      right; right; right; right; right; left
      exact ⟨Or.inl rfl, hto, rfl, rfl, by simp⟩
    · rename_i hto
      right; right; right; right; right; right; left
      split at h <;>
      · simp only [Option.some.injEq, Prod.mk.injEq] at h
        obtain ⟨rfl, rfl⟩ := h
        exact ⟨Or.inr (Or.inl rfl), not_lt.mp hto, by simp [following], rfl, by simp⟩
  · -- STATE_SEND_DEVEUI
    simp only [step, Option.some.injEq, Prod.mk.injEq] at h
    obtain ⟨rfl, rfl⟩ := h
    right; right; right; right; right; right; right; left
    exact ⟨Or.inr rfl, rfl, rfl, by simp⟩
  · -- STATE_WAIT_DEVEUI_RESPONSE
    simp only [step] at h
    split at h
    · rename_i hto
      simp only [Option.some.injEq, Prod.mk.injEq] at h
      obtain ⟨rfl, rfl⟩ := h
      right; right; right; right; right; left
      exact ⟨Or.inr rfl, hto, rfl, rfl, by simp⟩
    · rename_i hto
      right; right; right; right; right; right; left
      split at h <;>
      · simp only [Option.some.injEq, Prod.mk.injEq] at h
        obtain ⟨rfl, rfl⟩ := h
        exact ⟨Or.inr (Or.inr rfl), not_lt.mp hto, by simp [following], rfl, by simp⟩
  · -- STATE_PROCESS_DEVEUI
    simp only [step] at h
    cases hp : process_deveui buf with
    | none => simp [hp] at h
    | some pe =>
        simp only [hp, Option.map_some', Option.some.injEq, Prod.mk.injEq] at h
        obtain ⟨rfl, rfl⟩ := h
        right; right; right; right; right; right; right; right
        refine ⟨rfl, rfl, rfl, ?_⟩
        rcases process_deveui_events _ _ hp with h | ⟨identity, h⟩ <;> simp [h]


set_option maxRecDepth 20000 in
/-- Counterexample to C11 as stated: after a press and five probe rounds without reply the
machine is in `STATE_SEND_AT` with `at_retries = 5`, and the next iteration takes it to
`STATE_WAIT_FOR_BUTTON`: the stage is not kept, it is not the following stage, and the
starting stage is none of those named in the exceptions (a), (b), (c). -/
theorem abort_transition_counterexample :
    ∃ m tr m' evs,
      exec (initial blank_buffer) (press :: List.replicate 10 silence) = some (m, tr)
      ∧ step m silence = some (m', evs)
      ∧ m.state = STATE_SEND_AT ∧ m'.state = STATE_WAIT_FOR_BUTTON
      ∧ m'.state ≠ m.state ∧ following m.state ≠ some m'.state := by
  refine ⟨_, _, _, _, rfl, rfl, ?_, ?_, ?_, ?_⟩ <;> decide

/-- Claim C11, amended. One iteration either keeps the stage or moves to the stage that
follows it in the declared order, with exactly four exceptions: (a) `STATE_WAIT_AT_RESPONSE`
goes back to `STATE_SEND_AT` on timeout, (b) `STATE_WAIT_VERSION_RESPONSE` and
`STATE_WAIT_DEVEUI_RESPONSE` go to `STATE_WAIT_FOR_BUTTON` on timeout,
(c) `STATE_PROCESS_DEVEUI` always goes to `STATE_WAIT_FOR_BUTTON`, and (d) `STATE_SEND_AT`
goes to `STATE_WAIT_FOR_BUTTON` when `at_retries >= MAX_AT_RETRIES`.  Each of the four is
taken whenever its condition holds. -/
theorem stage_transitions (m m' : Machine) (inp : Input) (evs : List Event)
    (h : step m inp = some (m', evs)) :
    (m'.state = m.state ∨ following m.state = some m'.state
      ∨ (m.state = STATE_WAIT_AT_RESPONSE
          ∧ (read_line_with_timeout m.rx_line_buffer RX_BUFFER_SIZE inp.polls).2 < 0
          ∧ m'.state = STATE_SEND_AT)
      ∨ ((m.state = STATE_WAIT_VERSION_RESPONSE ∨ m.state = STATE_WAIT_DEVEUI_RESPONSE)
          ∧ (read_line_with_timeout m.rx_line_buffer RX_BUFFER_SIZE inp.polls).2 < 0
          ∧ m'.state = STATE_WAIT_FOR_BUTTON)
      ∨ (m.state = STATE_PROCESS_DEVEUI ∧ m'.state = STATE_WAIT_FOR_BUTTON)
      ∨ (m.state = STATE_SEND_AT ∧ MAX_AT_RETRIES ≤ m.at_retries
          ∧ m'.state = STATE_WAIT_FOR_BUTTON))
    ∧ (m.state = STATE_WAIT_AT_RESPONSE →
        (read_line_with_timeout m.rx_line_buffer RX_BUFFER_SIZE inp.polls).2 < 0 →
        m'.state = STATE_SEND_AT)
    ∧ (m.state = STATE_WAIT_VERSION_RESPONSE ∨ m.state = STATE_WAIT_DEVEUI_RESPONSE →
        (read_line_with_timeout m.rx_line_buffer RX_BUFFER_SIZE inp.polls).2 < 0 →
        m'.state = STATE_WAIT_FOR_BUTTON)
    ∧ (m.state = STATE_PROCESS_DEVEUI → m'.state = STATE_WAIT_FOR_BUTTON)
    ∧ (m.state = STATE_SEND_AT → MAX_AT_RETRIES ≤ m.at_retries →
        m'.state = STATE_WAIT_FOR_BUTTON) := by
  rcases step_cases m m' inp evs h with
    ⟨hs, -, hs', -, -⟩ | ⟨hs, -, rfl, -⟩ | ⟨hs, hge, hs', -, -⟩ | ⟨hs, hlt, hs', -, -⟩
    | ⟨hs, hto, hs', -, -⟩ | ⟨hs, hto, hs', -, -⟩ | ⟨hs, hge, hs', -, -⟩ | ⟨hs, hs', -, -⟩
    | ⟨hs, hs', -, -⟩
  · refine ⟨Or.inr (Or.inl (by rw [hs, hs']; rfl)), ?_, ?_, ?_, ?_⟩ <;> simp [hs]
  · refine ⟨Or.inl rfl, ?_, ?_, ?_, ?_⟩ <;> simp [hs]
  · refine ⟨?_, ?_, ?_, ?_, ?_⟩ <;> simp [hs, hs', hge]
  · refine ⟨Or.inr (Or.inl (by rw [hs, hs']; rfl)), ?_, ?_, ?_, ?_⟩ <;>
      simp [hs, not_le.mpr hlt]
  · refine ⟨?_, ?_, ?_, ?_, ?_⟩ <;> simp [hs, hs', hto]
  · refine ⟨?_, ?_, ?_, ?_, ?_⟩ <;> rcases hs with hs | hs <;> simp [hs, hs', hto]
  · have hn := not_lt.mpr hge
    refine ⟨?_, ?_, ?_, ?_, ?_⟩
    · rcases hs' with hs' | hs'
      · exact Or.inl hs'
      · exact Or.inr (Or.inl hs')
    all_goals rcases hs with hs | hs | hs <;> simp [hs, hn]
  · refine ⟨Or.inr (Or.inl hs'), ?_, ?_, ?_, ?_⟩ <;> rcases hs with hs | hs <;> simp [hs]
  · refine ⟨?_, ?_, ?_, ?_, ?_⟩ <;> simp [hs, hs']

set_option maxRecDepth 20000 in
/-- Witness of the amended C11: the aborting iteration of `STATE_SEND_AT`. -/
theorem stage_transitions_witness :
    step { state := STATE_SEND_AT, rx_line_buffer := blank_buffer, at_retries := 5,
           read_len := -1 } silence
      = some ({ state := STATE_WAIT_FOR_BUTTON, rx_line_buffer := blank_buffer,
                at_retries := 5, read_len := -1 },
              [Event.printf "module not responding\r\n" []])
    ∧ ({ state := STATE_WAIT_FOR_BUTTON, rx_line_buffer := blank_buffer, at_retries := 5,
         read_len := -1 } : Machine).state = STATE_WAIT_FOR_BUTTON :=
  ⟨by decide,
   (stage_transitions
      { state := STATE_SEND_AT, rx_line_buffer := blank_buffer, at_retries := 5,
        read_len := -1 }
      { state := STATE_WAIT_FOR_BUTTON, rx_line_buffer := blank_buffer, at_retries := 5,
        read_len := -1 }
      silence [Event.printf "module not responding\r\n" []] (by decide)).2.2.2.2 rfl
      (by decide)⟩

/-- Claim C12. The retry counter `at_retries` is written by two kinds of iteration only: in
`STATE_WAIT_FOR_BUTTON` with the button pressed it becomes 0 and the stage becomes
`STATE_SEND_AT`; in `STATE_SEND_AT` below the budget, which is exactly when `AT` is
transmitted, it grows by 1.  Every other iteration leaves it unchanged. -/
theorem at_retries_writes (m m' : Machine) (inp : Input) (evs : List Event)
    (h : step m inp = some (m', evs)) :
    (m.state = STATE_WAIT_FOR_BUTTON → inp.gpio = false →
        m'.at_retries = 0 ∧ m'.state = STATE_SEND_AT)
    ∧ (m.state = STATE_SEND_AT → m.at_retries < MAX_AT_RETRIES →
        m'.at_retries = m.at_retries + 1 ∧ Event.iuart_send "AT\r\n" ∈ evs)
    ∧ (Event.iuart_send "AT\r\n" ∈ evs → m'.at_retries = m.at_retries + 1)
    ∧ (¬ (m.state = STATE_WAIT_FOR_BUTTON ∧ inp.gpio = false) →
        ¬ (m.state = STATE_SEND_AT ∧ m.at_retries < MAX_AT_RETRIES) →
        m'.at_retries = m.at_retries ∧ Event.iuart_send "AT\r\n" ∉ evs) := by
  rcases step_cases m m' inp evs h with
    ⟨hs, hg, hs', hr, hn⟩ | ⟨hs, hg, rfl, rfl⟩ | ⟨hs, hge, -, hr, hn⟩ | ⟨hs, hlt, -, hr, hy⟩
    | ⟨hs, -, -, hr, hn⟩ | ⟨hs, -, -, hr, hn⟩ | ⟨hs, -, -, hr, hn⟩ | ⟨hs, -, hr, hn⟩
    | ⟨hs, -, hr, hn⟩
  · exact ⟨fun _ _ => ⟨hr, hs'⟩, by simp [hs], fun h => absurd h hn,
      fun h1 _ => absurd ⟨hs, hg⟩ h1⟩
  · exact ⟨by simp [hg], by simp [hs], by simp, fun _ _ => ⟨rfl, by simp⟩⟩
  · exact ⟨by simp [hs], fun _ hlt => absurd hlt (not_lt.mpr hge), fun h => absurd h hn,
      fun _ _ => ⟨hr, hn⟩⟩
  · exact ⟨by simp [hs], fun _ _ => ⟨hr, hy⟩, fun _ => hr, fun _ h2 => absurd ⟨hs, hlt⟩ h2⟩
  · exact ⟨by simp [hs], by simp [hs], fun h => absurd h hn, fun _ _ => ⟨hr, hn⟩⟩
  · refine ⟨?_, ?_, fun h => absurd h hn, fun _ _ => ⟨hr, hn⟩⟩ <;>
      rcases hs with hs | hs <;> simp [hs]
  · refine ⟨?_, ?_, fun h => absurd h hn, fun _ _ => ⟨hr, hn⟩⟩ <;>
      rcases hs with hs | hs | hs <;> simp [hs]
  · refine ⟨?_, ?_, fun h => absurd h hn, fun _ _ => ⟨hr, hn⟩⟩ <;>
      rcases hs with hs | hs <;> simp [hs]
  · exact ⟨by simp [hs], by simp [hs], fun h => absurd h hn, fun _ _ => ⟨hr, hn⟩⟩

set_option maxRecDepth 20000 in
/-- Witness of C12: the third probe of a run. -/
theorem at_retries_writes_witness :
    step { state := STATE_SEND_AT, rx_line_buffer := blank_buffer, at_retries := 2,
           read_len := -1 } silence
      = some ({ state := STATE_WAIT_AT_RESPONSE, rx_line_buffer := blank_buffer,
                at_retries := 3, read_len := -1 },
              [Event.printf "Sending 'AT',(try %d / %d...)\r\n"
                 [Arg.d 2, Arg.d MAX_AT_RETRIES],
               Event.iuart_send "AT\r\n"])
    ∧ ((3 : Int) = 2 + 1 ∧ Event.iuart_send "AT\r\n" ∈
        [Event.printf "Sending 'AT',(try %d / %d...)\r\n" [Arg.d 2, Arg.d MAX_AT_RETRIES],
         Event.iuart_send "AT\r\n"]) :=
  ⟨by decide,
   (at_retries_writes
      { state := STATE_SEND_AT, rx_line_buffer := blank_buffer, at_retries := 2,
        read_len := -1 }
      { state := STATE_WAIT_AT_RESPONSE, rx_line_buffer := blank_buffer, at_retries := 3,
        read_len := -1 }
      silence
      [Event.printf "Sending 'AT',(try %d / %d...)\r\n" [Arg.d 2, Arg.d MAX_AT_RETRIES],
       Event.iuart_send "AT\r\n"] (by decide)).2.1 rfl (by decide)⟩


/-! ## The buffer handed to `process_deveui` -/

/-- The only iteration that ends in `STATE_PROCESS_DEVEUI` is one of
`STATE_WAIT_DEVEUI_RESPONSE` in which a line with the token was received; the buffer then
holds that line. -/
theorem step_into_process (m m' : Machine) (inp : Input) (evs : List Event)
    (h : step m inp = some (m', evs)) (hst : m'.state = STATE_PROCESS_DEVEUI) :
    m.state = STATE_WAIT_DEVEUI_RESPONSE
      ∧ 0 ≤ (read_line_with_timeout m.rx_line_buffer RX_BUFFER_SIZE inp.polls).2
      ∧ m'.rx_line_buffer = (read_line_with_timeout m.rx_line_buffer RX_BUFFER_SIZE inp.polls).1
      ∧ bytes "+ID: DevEui" <:+: c_str m'.rx_line_buffer := by
  obtain ⟨st, buf, r, len⟩ := m
  cases st <;> simp only [step] at h
  · split at h
    · split at h
      · simp only [Option.some.injEq, Prod.mk.injEq] at h
        obtain ⟨rfl, rfl⟩ := h
        simp at hst
      · simp at h
    · simp only [Option.some.injEq, Prod.mk.injEq] at h
      obtain ⟨rfl, rfl⟩ := h
      simp at hst
  · split at h <;>
    · simp only [Option.some.injEq, Prod.mk.injEq] at h
      obtain ⟨rfl, rfl⟩ := h
      simp at hst
  · split at h
    · simp only [Option.some.injEq, Prod.mk.injEq] at h
      obtain ⟨rfl, rfl⟩ := h
      simp at hst
    · split at h <;>
      · simp only [Option.some.injEq, Prod.mk.injEq] at h
        obtain ⟨rfl, rfl⟩ := h
        simp at hst
  · simp only [Option.some.injEq, Prod.mk.injEq] at h
    obtain ⟨rfl, rfl⟩ := h
    simp at hst
  · split at h
    · simp only [Option.some.injEq, Prod.mk.injEq] at h
      obtain ⟨rfl, rfl⟩ := h
      simp at hst
    · split at h <;>
      · simp only [Option.some.injEq, Prod.mk.injEq] at h
        obtain ⟨rfl, rfl⟩ := h
        simp at hst
  · simp only [Option.some.injEq, Prod.mk.injEq] at h
    obtain ⟨rfl, rfl⟩ := h
    simp at hst
  · split at h
    · simp only [Option.some.injEq, Prod.mk.injEq] at h
      obtain ⟨rfl, rfl⟩ := h
      simp at hst
    · rename_i hto
      split at h
      · rename_i htok
        simp only [Option.some.injEq, Prod.mk.injEq] at h
        obtain ⟨rfl, rfl⟩ := h
        exact ⟨rfl, not_lt.mp hto, rfl, (strstr_isSome_iff _ _).mp htok⟩
      · simp only [Option.some.injEq, Prod.mk.injEq] at h
        obtain ⟨rfl, rfl⟩ := h
        simp at hst
  · cases hp : process_deveui buf with
    | none => simp [hp] at h
    | some pe =>
        simp only [hp, Option.map_some', Option.some.injEq, Prod.mk.injEq] at h
        obtain ⟨rfl, rfl⟩ := h
        simp at hst

/-- Claim C19. In every state reached from the initial one whose stage is
`STATE_PROCESS_DEVEUI`, the buffer that the next iteration hands to `process_deveui` is the
line received by the `STATE_WAIT_DEVEUI_RESPONSE` iteration just before, and it contains
`+ID: DevEui`. -/
theorem process_stage_buffer (buffer : List Nat) (inputs : List Input) (m : Machine)
    (tr : List Event) (h : exec (initial buffer) inputs = some (m, tr))
    (hst : m.state = STATE_PROCESS_DEVEUI) :
    bytes "+ID: DevEui" <:+: c_str m.rx_line_buffer
      ∧ (∀ inp, step m inp =
          (process_deveui m.rx_line_buffer).map (fun evs =>
            ({ m with state := STATE_WAIT_FOR_BUTTON },
              Event.printf "Processing DevEui....\r\n" [] :: evs)))
      ∧ ∃ before inp m0 tr0, inputs = before ++ [inp]
          ∧ exec (initial buffer) before = some (m0, tr0)
          ∧ m0.state = STATE_WAIT_DEVEUI_RESPONSE
          ∧ 0 ≤ (read_line_with_timeout m0.rx_line_buffer RX_BUFFER_SIZE inp.polls).2
          ∧ m.rx_line_buffer
              = (read_line_with_timeout m0.rx_line_buffer RX_BUFFER_SIZE inp.polls).1 := by
  rcases List.eq_nil_or_concat inputs with rfl | ⟨before, inp, rfl⟩
  · simp only [exec, Option.some.injEq, Prod.mk.injEq] at h
    obtain ⟨rfl, rfl⟩ := h
    simp [initial] at hst
  · rw [List.concat_eq_append, exec_append] at h
    cases h1 : exec (initial buffer) before with
    | none => simp [h1] at h
    | some r1 =>
        obtain ⟨m0, tr0⟩ := r1
        simp only [h1, Option.some_bind, exec_single] at h
        cases h2 : step m0 inp with
        | none => simp [h2] at h
        | some r2 =>
            obtain ⟨m2, evs⟩ := r2
            simp only [h2, Option.map_some', Option.some.injEq, Prod.mk.injEq] at h
            obtain ⟨rfl, rfl⟩ := h
            obtain ⟨hs0, hge, hbuf, htok⟩ := step_into_process m0 m2 inp evs h2 hst
            refine ⟨htok, ?_, before, inp, m0, tr0, by simp, h1, hs0, hge, hbuf⟩
            intro inp'
            simp only [step, hst]

set_option maxRecDepth 20000 in
/-- Witness of C19: the state after the identity reply of an answered run. -/
theorem process_stage_buffer_witness :
    ∃ m tr,
      exec (initial blank_buffer)
        ((answered_inputs "+ID: DevEui, AA:BB:CC:DD:EE:FF:00:11").take 7) = some (m, tr)
      ∧ m.state = STATE_PROCESS_DEVEUI
      ∧ c_str m.rx_line_buffer = bytes "+ID: DevEui, AA:BB:CC:DD:EE:FF:00:11"
      ∧ bytes "+ID: DevEui" <:+: c_str m.rx_line_buffer :=
  ⟨_, _, rfl, by decide, by decide,
    (process_stage_buffer blank_buffer
      ((answered_inputs "+ID: DevEui, AA:BB:CC:DD:EE:FF:00:11").take 7) _ _ rfl
      (by decide)).1⟩


/-! ## `read_line_with_timeout`: what is left in the buffer -/

theorem take_set_of_le (l : List Nat) (a : Nat) (m n : Nat) (h : m ≤ n) :
    (l.set n a).take m = l.take m :=
  List.ext_getElem? fun i => by
    rw [List.getElem?_take, List.getElem?_take]
    split
    · rw [List.getElem?_set_ne (by omega)]
    · rfl

theorem take_succ_set (l : List Nat) (a : Nat) (n : Nat) (h : n < l.length) :
    (l.set n a).take (n + 1) = l.take n ++ [a] := by
  rw [List.take_succ, take_set_of_le l a n n (le_refl n), List.getElem?_set_self h]
  rfl

theorem before_line_feed_none (polls : List (Option Nat)) :
    before_line_feed (none :: polls) = before_line_feed polls := by
  simp [before_line_feed, received_bytes]

theorem before_line_feed_feed (polls : List (Option Nat)) :
    before_line_feed (some 10 :: polls) = [] := by
  simp [before_line_feed, received_bytes]

theorem before_line_feed_byte (c : Nat) (hc : c ≠ 10) (polls : List (Option Nat)) :
    before_line_feed (some c :: polls) = c :: before_line_feed polls := by
  simp [before_line_feed, received_bytes, List.takeWhile_cons, hc]

theorem strip_cr_take (buffer : List Nat) (pos : Nat) (hpos : pos < buffer.length) :
    strip_cr (buffer.take pos) =
      if 0 < pos ∧ buffer[pos - 1]? = some 13 then buffer.take (pos - 1)
      else buffer.take pos := by
  unfold strip_cr
  rw [List.getLast?_take]
  by_cases h0 : pos = 0
  · subst h0
    simp
  · have hlt : pos - 1 < buffer.length := by omega
    have hget : buffer[pos - 1]? = some buffer[pos - 1] := List.getElem?_eq_getElem hlt
    have hpos0 : 0 < pos := Nat.pos_of_ne_zero h0
    simp only [h0, if_false, hget, Option.or_some, hpos0, true_and]
    split
    · exact List.dropLast_take hpos
    · rfl

/-- The result of the receive loop when a line feed arrives before the deadline, started
at position `pos` with the bytes `buffer.take pos` already stored. -/
theorem read_line_loop_line (max_len : Int) (hmax : 1 ≤ max_len) (polls : List (Option Nat))
    (hfeed : some 10 ∈ polls) (buffer : List Nat) (pos : Nat)
    (hpos : pos ≤ (max_len - 1).toNat) (hlen : max_len ≤ buffer.length) :
    (read_line_loop max_len polls buffer pos).2
        = (strip_cr (buffer.take pos ++
            (before_line_feed polls).take ((max_len - 1).toNat - pos))).length
      ∧ (read_line_loop max_len polls buffer pos).1.take
          (strip_cr (buffer.take pos ++
            (before_line_feed polls).take ((max_len - 1).toNat - pos))).length
        = strip_cr (buffer.take pos ++
            (before_line_feed polls).take ((max_len - 1).toNat - pos))
      ∧ (read_line_loop max_len polls buffer pos).1[
          (strip_cr (buffer.take pos ++
            (before_line_feed polls).take ((max_len - 1).toNat - pos))).length]? = some 0 := by
  induction polls generalizing buffer pos with
  | nil => simp at hfeed
  | cons p polls ih =>
      have hposlen : pos < buffer.length := by omega
      cases p with
      | none =>
          have hfeed' : some 10 ∈ polls := by simpa using hfeed
          rw [before_line_feed_none]
          exact ih hfeed' buffer pos hpos hlen
      | some c =>
          by_cases hc : c = 10
          · subst hc
            rw [before_line_feed_feed, List.take_nil, List.append_nil,
              strip_cr_take buffer pos hposlen, read_line_loop, if_pos rfl]
            by_cases hcr : 0 < pos ∧ buffer[pos - 1]? = some 13
            · have hcr' : 0 < pos ∧ (buffer.set pos 0)[pos - 1]? = some 13 := by
                rw [List.getElem?_set_ne (by omega)]
                exact hcr
              rw [if_pos hcr, if_pos hcr']
              have hl : (buffer.take (pos - 1)).length = pos - 1 := by
                rw [List.length_take]; omega
              rw [hl]
              refine ⟨by have := hcr.1; omega, ?_, ?_⟩
              · rw [take_set_of_le _ _ _ _ (le_refl _), take_set_of_le _ _ _ _ (by omega)]
              · rw [List.getElem?_set_self (by simp; omega)]
            · have hcr' : ¬ (0 < pos ∧ (buffer.set pos 0)[pos - 1]? = some 13) := by
                intro h
                apply hcr
                refine ⟨h.1, ?_⟩
                have := h.2
                rwa [List.getElem?_set_ne (by have := h.1; omega)] at this
              rw [if_neg hcr, if_neg hcr']
              have hl : (buffer.take pos).length = pos := by
                rw [List.length_take]; omega
              rw [hl]
              refine ⟨rfl, ?_, ?_⟩
              · rw [take_set_of_le _ _ _ _ (le_refl _)]
              · rw [List.getElem?_set_self hposlen]
          · have hfeed' : some 10 ∈ polls := by
              rcases List.mem_cons.mp hfeed with h | h
              · exact absurd (Option.some.inj h).symm hc
              · exact h
            rw [before_line_feed_byte c hc, read_line_loop, if_neg hc]
            by_cases hroom : (pos : Int) < max_len - 1
            · rw [if_pos hroom]
              have hlt : pos < (max_len - 1).toNat := by omega
              have hsub : (max_len - 1).toNat - pos = ((max_len - 1).toNat - (pos + 1)) + 1 := by
                omega
              have hkept : buffer.take pos ++ (c :: before_line_feed polls).take
                    ((max_len - 1).toNat - pos)
                  = (buffer.set pos c).take (pos + 1) ++ (before_line_feed polls).take
                    ((max_len - 1).toNat - (pos + 1)) := by
                rw [hsub, List.take_succ_cons, take_succ_set buffer c pos hposlen]
                simp
              rw [hkept]
              exact ih hfeed' (buffer.set pos c) (pos + 1) (by omega) (by simpa using hlen)
            · rw [if_neg hroom]
              have hz : (max_len - 1).toNat - pos = 0 := by omega
              have := ih hfeed' buffer pos hpos hlen
              rw [hz] at this ⊢
              simpa using this

/-- The result of the receive loop when no line feed arrives before the deadline. -/
theorem read_line_loop_deadline (max_len : Int) (hmax : 1 ≤ max_len)
    (polls : List (Option Nat)) (hfeed : some 10 ∉ polls) (buffer : List Nat) (pos : Nat)
    (hpos : pos ≤ (max_len - 1).toNat) (hlen : max_len ≤ buffer.length) :
    (read_line_loop max_len polls buffer pos).2 = -1
      ∧ (read_line_loop max_len polls buffer pos).1.take
          (pos + min ((max_len - 1).toNat - pos) (received_bytes polls).length)
        = buffer.take pos ++ (received_bytes polls).take ((max_len - 1).toNat - pos)
      ∧ (read_line_loop max_len polls buffer pos).1[
          pos + min ((max_len - 1).toNat - pos) (received_bytes polls).length]? = some 0 := by
  induction polls generalizing buffer pos with
  | nil =>
      have hposlen : pos < buffer.length := by omega
      simp only [read_line_loop, received_bytes, List.filterMap_nil, List.length_nil,
        Nat.min_zero, Nat.add_zero, List.take_nil, List.append_nil, true_and]
      exact ⟨take_set_of_le _ _ _ _ (le_refl _), List.getElem?_set_self hposlen⟩
  | cons p polls ih =>
      have hposlen : pos < buffer.length := by omega
      have hfeed' : some 10 ∉ polls := fun h => hfeed (List.mem_cons_of_mem _ h)
      cases p with
      | none =>
          have hr : received_bytes (none :: polls) = received_bytes polls := by
            simp [received_bytes]
          rw [hr]
          exact ih hfeed' buffer pos hpos hlen
      | some c =>
          have hc : c ≠ 10 := fun hc => hfeed (by simp [hc])
          have hr : received_bytes (some c :: polls) = c :: received_bytes polls := by
            simp [received_bytes]
          rw [hr, read_line_loop, if_neg hc]
          by_cases hroom : (pos : Int) < max_len - 1
          · rw [if_pos hroom]
            have hlt : pos < (max_len - 1).toNat := by omega
            have hsub : (max_len - 1).toNat - pos = ((max_len - 1).toNat - (pos + 1)) + 1 := by
              omega
            have hidx : pos + min ((max_len - 1).toNat - pos) (c :: received_bytes polls).length
                = (pos + 1) + min ((max_len - 1).toNat - (pos + 1))
                    (received_bytes polls).length := by
              simp only [List.length_cons]; omega
            have hkept : buffer.take pos ++ (c :: received_bytes polls).take
                  ((max_len - 1).toNat - pos)
                = (buffer.set pos c).take (pos + 1) ++ (received_bytes polls).take
                  ((max_len - 1).toNat - (pos + 1)) := by
              rw [hsub, List.take_succ_cons, take_succ_set buffer c pos hposlen]
              simp
            rw [hidx, hkept]
            exact ih hfeed' (buffer.set pos c) (pos + 1) (by omega) (by simpa using hlen)
          · rw [if_neg hroom]
            have hz : (max_len - 1).toNat - pos = 0 := by omega
            have := ih hfeed' buffer pos hpos hlen
            rw [hz] at this ⊢
            simpa using this


theorem mem_received_bytes (c : Nat) (polls : List (Option Nat)) :
    c ∈ received_bytes polls ↔ some c ∈ polls := by
  simp [received_bytes, List.mem_filterMap]

theorem eq_append_of_take (l e : List Nat) (h1 : l.take e.length = e)
    (h2 : l[e.length]? = some 0) : l = e ++ 0 :: l.drop (e.length + 1) := by
  have hlt : e.length < l.length := by
    by_contra hge
    rw [List.getElem?_eq_none (by omega)] at h2
    exact Option.noConfusion h2
  have hdrop : l.drop e.length = 0 :: l.drop (e.length + 1) := by
    rw [List.drop_eq_getElem_cons hlt]
    have : l[e.length] = 0 := by
      rw [List.getElem?_eq_getElem hlt] at h2
      exact Option.some.inj h2
    rw [this]
  calc l = l.take e.length ++ l.drop e.length := (List.take_append_drop _ _).symm
    _ = e ++ 0 :: l.drop (e.length + 1) := by rw [h1, hdrop]

theorem line_feed_not_mem_expected_line (max_len : Int) (polls : List (Option Nat)) :
    10 ∉ expected_line max_len polls := by
  have h1 : 10 ∉ before_line_feed polls := by
    intro h
    have := List.mem_takeWhile_imp h
    simp at this
  have h2 : 10 ∉ (before_line_feed polls).take (max_len - 1).toNat :=
    fun h => h1 (List.mem_of_mem_take h)
  unfold expected_line strip_cr
  split
  · exact fun h => h2 (List.mem_of_mem_dropLast h)
  · exact h2

/-- Claim C13. For `max_len >= 1`, a buffer of at least `max_len` bytes and any bytes
received before the deadline: when a line feed is among them, `read_line_with_timeout`
returns the number of bytes it leaves in the buffer, a non-negative value, and the buffer
starts with the bytes received before the first line feed, cut to the first `max_len - 1`
and without one trailing carriage return, followed by the terminator; the line feed is not
among them.  When no line feed is received, the return value is -1. -/
theorem read_line_contract (buffer : List Nat) (max_len : Int) (polls : List (Option Nat))
    (hmax : 1 ≤ max_len) (hlen : max_len ≤ buffer.length) :
    (10 ∈ received_bytes polls →
        0 ≤ (read_line_with_timeout buffer max_len polls).2
        ∧ (read_line_with_timeout buffer max_len polls).2
            = (expected_line max_len polls).length
        ∧ (read_line_with_timeout buffer max_len polls).1.take
            (expected_line max_len polls).length = expected_line max_len polls
        ∧ (read_line_with_timeout buffer max_len polls).1[
            (expected_line max_len polls).length]? = some 0
        ∧ 10 ∉ expected_line max_len polls
        ∧ (0 ∉ expected_line max_len polls →
            c_str (read_line_with_timeout buffer max_len polls).1
              = expected_line max_len polls))
    ∧ (10 ∉ received_bytes polls → (read_line_with_timeout buffer max_len polls).2 = -1) := by
  constructor
  · intro hfeed
    have h := read_line_loop_line max_len hmax polls ((mem_received_bytes 10 polls).mp hfeed)
      buffer 0 (Nat.zero_le _) hlen
    simp only [List.take_zero, List.nil_append, Nat.sub_zero] at h
    obtain ⟨h1, h2, h3⟩ := h
    refine ⟨?_, h1, h2, h3, line_feed_not_mem_expected_line max_len polls, ?_⟩
    · show 0 ≤ (read_line_loop max_len polls buffer 0).2
      rw [h1]
      exact Int.natCast_nonneg _
    · intro h0
      have hsplit := eq_append_of_take _ _ h2 h3
      show c_str (read_line_loop max_len polls buffer 0).1 = _
      rw [hsplit]
      exact c_str_append_nul _ _ h0
  · intro hfeed
    exact read_line_timeout buffer max_len polls
      (fun h => hfeed ((mem_received_bytes 10 polls).mpr h))

set_option maxRecDepth 20000 in
/-- Witness of C13: the reply `OK` ended by CR LF, received into a blank buffer. -/
theorem read_line_contract_witness :
    (read_line_with_timeout blank_buffer RX_BUFFER_SIZE (reply "OK\r\n").polls).2 = 2
      ∧ c_str (read_line_with_timeout blank_buffer RX_BUFFER_SIZE (reply "OK\r\n").polls).1
          = bytes "OK" :=
  have h := (read_line_contract blank_buffer RX_BUFFER_SIZE (reply "OK\r\n").polls
    (by decide) (by decide)).1 (by decide)
  ⟨h.2.1, h.2.2.2.2.2 (by decide)⟩

set_option maxRecDepth 20000 in
/-- Counterexample to C15 as stated: the bytes `O`, `K` arrive and then the deadline passes.
The call returns -1 and the buffer holds the C string `OK`, not the empty string. -/
theorem unfinished_line_counterexample :
    (read_line_with_timeout blank_buffer RX_BUFFER_SIZE [some 79, none, some 75, none]).2 = -1
      ∧ c_str (read_line_with_timeout blank_buffer RX_BUFFER_SIZE
          [some 79, none, some 75, none]).1 = bytes "OK"
      ∧ c_str (read_line_with_timeout blank_buffer RX_BUFFER_SIZE
          [some 79, none, some 75, none]).1 ≠ [] := by
  refine ⟨?_, ?_, ?_⟩ <;> decide

/-- Claim C15, amended. When `read_line_with_timeout` times out (no line feed arrives
before the deadline), it returns -1 and terminates the buffer after the bytes received so
far: the buffer starts with the first `max_len - 1` received bytes followed by the
terminator, so the bytes of the incomplete line stay in the buffer as a C string. -/
theorem unfinished_line_kept (buffer : List Nat) (max_len : Int) (polls : List (Option Nat))
    (hmax : 1 ≤ max_len) (hlen : max_len ≤ buffer.length)
    (hfeed : 10 ∉ received_bytes polls) :
    (read_line_with_timeout buffer max_len polls).2 = -1
      ∧ (read_line_with_timeout buffer max_len polls).1.take
          ((received_bytes polls).take (max_len - 1).toNat).length
        = (received_bytes polls).take (max_len - 1).toNat
      ∧ (read_line_with_timeout buffer max_len polls).1[
          ((received_bytes polls).take (max_len - 1).toNat).length]? = some 0
      ∧ (0 ∉ received_bytes polls →
          c_str (read_line_with_timeout buffer max_len polls).1
            = (received_bytes polls).take (max_len - 1).toNat) := by
  have h := read_line_loop_deadline max_len hmax polls
    (fun h => hfeed ((mem_received_bytes 10 polls).mpr h)) buffer 0 (Nat.zero_le _) hlen
  simp only [List.take_zero, List.nil_append, Nat.sub_zero, Nat.zero_add] at h
  obtain ⟨h1, h2, h3⟩ := h
  have hl : ((received_bytes polls).take (max_len - 1).toNat).length
      = min (max_len - 1).toNat (received_bytes polls).length := List.length_take _ _
  rw [← hl] at h2 h3
  refine ⟨h1, h2, h3, ?_⟩
  intro h0
  have hsplit := eq_append_of_take _ _ h2 h3
  show c_str (read_line_loop max_len polls buffer 0).1 = _
  rw [hsplit]
  exact c_str_append_nul _ _ (fun h => h0 (List.mem_of_mem_take h))

set_option maxRecDepth 20000 in
/-- Witness of the amended C15: the same two bytes, by the general statement. -/
theorem unfinished_line_kept_witness :
    (read_line_with_timeout blank_buffer RX_BUFFER_SIZE [some 79, none, some 75, none]).2 = -1
      ∧ c_str (read_line_with_timeout blank_buffer RX_BUFFER_SIZE
          [some 79, none, some 75, none]).1 = [79, 75] :=
  have h := unfinished_line_kept blank_buffer RX_BUFFER_SIZE [some 79, none, some 75, none]
    (by decide) (by decide) (by decide)
  ⟨h.1, h.2.2.2 (by decide)⟩


/-! ## `read_line_with_timeout`: the indices written -/

theorem read_line_loop_writes_bound (max_len : Int) (polls : List (Option Nat))
    (buffer : List Nat) (pos : Nat) (hpos : (pos : Int) ≤ max_len - 1) :
    (∀ w ∈ read_line_loop_writes max_len polls buffer pos, (w : Int) ≤ max_len - 1)
      ∧ (read_line_loop max_len polls buffer pos).2 ≤ max_len - 1 := by
  induction polls generalizing buffer pos with
  | nil =>
      simp only [read_line_loop_writes, read_line_loop, List.mem_singleton, forall_eq]
      exact ⟨hpos, by omega⟩
  | cons p polls ih =>
      cases p with
      | none => exact ih buffer pos hpos
      | some c =>
          rw [read_line_loop_writes, read_line_loop]
          split
          · split
            · refine ⟨?_, by simp only; omega⟩
              intro w hw
              simp only [List.mem_cons, List.mem_singleton, List.not_mem_nil, or_false] at hw
              rcases hw with rfl | rfl <;> omega
            · refine ⟨?_, by simp only; omega⟩
              intro w hw
              simp only [List.mem_singleton] at hw
              subst hw
              exact hpos
          · split
            · rename_i hroom
              have h := ih (buffer.set pos c) (pos + 1) (by push_cast; omega)
              refine ⟨?_, h.2⟩
              intro w hw
              rcases List.mem_cons.mp hw with rfl | hw
              · exact hpos
              · exact h.1 w hw
            · exact ih buffer pos hpos

/-- Every index of the buffer that is not in the list of written indices keeps its
content. -/
theorem read_line_loop_frame (max_len : Int) (polls : List (Option Nat)) (buffer : List Nat)
    (pos i : Nat) (hi : i ∉ read_line_loop_writes max_len polls buffer pos) :
    (read_line_loop max_len polls buffer pos).1[i]? = buffer[i]? := by
  induction polls generalizing buffer pos with
  | nil =>
      simp only [read_line_loop_writes, List.mem_singleton] at hi
      simp only [read_line_loop]
      exact List.getElem?_set_ne (fun h => hi h.symm)
  | cons p polls ih =>
      cases p with
      | none => exact ih buffer pos hi
      | some c =>
          rw [read_line_loop_writes] at hi
          rw [read_line_loop]
          split
          · rename_i hc
            rw [if_pos hc] at hi
            split
            · rename_i hcr
              rw [if_pos hcr] at hi
              simp only [List.mem_cons, List.mem_singleton, List.not_mem_nil, or_false,
                not_or] at hi
              rw [List.getElem?_set_ne (fun h => hi.2 h.symm),
                List.getElem?_set_ne (fun h => hi.1 h.symm)]
            · rename_i hcr
              rw [if_neg hcr] at hi
              simp only [List.mem_singleton] at hi
              exact List.getElem?_set_ne (fun h => hi h.symm)
          · rename_i hc
            rw [if_neg hc] at hi
            split
            · rename_i hroom
              rw [if_pos hroom] at hi
              simp only [List.mem_cons, not_or] at hi
              rw [ih (buffer.set pos c) (pos + 1) hi.2]
              exact List.getElem?_set_ne (fun h => hi.1 h.symm)
            · rename_i hroom
              rw [if_neg hroom] at hi
              exact ih buffer pos hi

/-- Claim C18. For `max_len >= 1` and any received bytes, every buffer index written by
`read_line_with_timeout` is at most `max_len - 1` (the write position is the index of a
store at each of its values, so it stays within this bound too), the return value is at
most `max_len - 1`, the buffer keeps its length, and every byte at an index from `max_len`
on, like every byte at an index that is not written, is left as it was. -/
theorem read_line_writes_in_bounds (buffer : List Nat) (max_len : Int)
    (polls : List (Option Nat)) (hmax : 1 ≤ max_len) :
    (∀ w ∈ read_line_writes buffer max_len polls, 0 ≤ (w : Int) ∧ (w : Int) ≤ max_len - 1)
      ∧ (read_line_with_timeout buffer max_len polls).2 ≤ max_len - 1
      ∧ (read_line_with_timeout buffer max_len polls).1.length = buffer.length
      ∧ (∀ i : Nat, i ∉ read_line_writes buffer max_len polls →
          (read_line_with_timeout buffer max_len polls).1[i]? = buffer[i]?)
      ∧ (∀ i : Nat, max_len ≤ (i : Int) →
          (read_line_with_timeout buffer max_len polls).1[i]? = buffer[i]?) := by
  have hb := read_line_loop_writes_bound max_len polls buffer 0 (by simpa using hmax)
  refine ⟨fun w hw => ⟨Int.natCast_nonneg w, hb.1 w hw⟩, hb.2,
    read_line_length buffer max_len polls,
    fun i hi => read_line_loop_frame max_len polls buffer 0 i hi, ?_⟩
  intro i hi
  apply read_line_loop_frame max_len polls buffer 0 i
  intro hmem
  have := hb.1 i hmem
  omega

set_option maxRecDepth 20000 in
/-- Witness of C18: a line longer than a buffer of 4 bytes. -/
theorem read_line_writes_in_bounds_witness :
    read_line_writes [7, 7, 7, 7, 9, 9] 4 (reply "ABCDEF\r\n").polls = [0, 1, 2, 3]
      ∧ read_line_with_timeout [7, 7, 7, 7, 9, 9] 4 (reply "ABCDEF\r\n").polls
          = ([65, 66, 67, 0, 9, 9], 3)
      ∧ (read_line_with_timeout [7, 7, 7, 7, 9, 9] 4 (reply "ABCDEF\r\n").polls).2 ≤ 4 - 1 :=
  ⟨by decide, by decide,
    (read_line_writes_in_bounds [7, 7, 7, 7, 9, 9] 4 (reply "ABCDEF\r\n").polls
      (by decide)).2.1⟩


/-! ## Reads of `process_deveui` -/

/-- Claim C17, evaluated on the code. For the line `+ID: DevEui,`, whose last character is
the `,`, the terminator is at index 12, and the loop of `process_deveui` starts reading at
index 13, beyond the terminator: with the bytes `stale` behind the terminator it reads the
indices 13 to 18 and prints `stale`; with nothing behind the terminator the read at index 13
is outside the object. -/
theorem comma_last_reads_past_terminator :
    (bytes "+ID: DevEui,").length = 12
    ∧ c_str (bytes "+ID: DevEui," ++ 0 :: (bytes "stale" ++ [0])) = bytes "+ID: DevEui,"
    ∧ process_deveui_reads (bytes "+ID: DevEui," ++ 0 :: (bytes "stale" ++ [0]))
        = [13, 14, 15, 16, 17, 18]
    ∧ process_deveui (bytes "+ID: DevEui," ++ 0 :: (bytes "stale" ++ [0]))
        = some [Event.printf "%s\r\n" [Arg.s (bytes "stale")]]
    ∧ process_deveui_reads (bytes "+ID: DevEui," ++ [0]) = [13]
    ∧ process_deveui (bytes "+ID: DevEui," ++ [0]) = none := by
  refine ⟨?_, ?_, ?_, ?_, ?_, ?_⟩ <;> decide

end Lab4

namespace Lab5


/-! ## The complement check of `ledstate` -/

theorem not_u8_eq (v : Nat) (hv : v < 256) : not_u8 v = 255 - v := by
  unfold not_u8
  omega

theorem xor_255 (v : Nat) (hv : v < 256) : v ^^^ 255 = 255 - v := by
  have h : 255 - v + v = 2 ^ 8 - 1 := by omega
  apply Nat.eq_of_testBit_eq
  intro i
  have h1 := Nat.testBit_two_pow_sub_succ (x := v) (n := 8) (by simpa using hv) i
  simp only [Nat.succ_eq_add_one] at h1
  have h2 : 2 ^ 8 - (v + 1) = 255 - v := by omega
  rw [h2] at h1
  rw [h1, Nat.testBit_xor]
  have h255 : (255 : Nat) = 2 ^ 8 - 1 := by norm_num
  rw [h255, Nat.testBit_two_pow_sub_one]
  by_cases hi : i < 8
  · simp [hi]
  · have hle : 2 ^ 8 ≤ 2 ^ i := Nat.pow_le_pow_right (by norm_num : 0 < 2) (not_lt.mp hi)
    have hvi : v < 2 ^ i := by omega
    have : v.testBit i = false := Nat.testBit_lt_two_pow hvi
    simp [hi, this]

theorem valid_iff (s n : Nat) (hn : n < 256) :
    led_state_is_valid { state := s, not_state := n } = true ↔ s = 255 - n := by
  simp [led_state_is_valid, not_u8_eq n hn]

theorem xor_eq_255_iff (s n : Nat) (hs : s < 256) (hn : n < 256) :
    s ^^^ n = 255 ↔ s = 255 - n := by
  constructor
  · intro h
    have : s ^^^ n ^^^ n = 255 ^^^ n := by rw [h]
    rw [Nat.xor_assoc, Nat.xor_self, Nat.xor_zero, Nat.xor_comm, xor_255 n hn] at this
    exact this
  · intro h
    have hn' : n = 255 - s := by omega
    rw [hn', ← xor_255 s hs, ← Nat.xor_assoc, Nat.xor_self, Nat.zero_xor]

theorem valid_row (s : Nat) (hs : s < 256) :
    ((List.range 256).map (fun n => ({ state := s, not_state := n } : ledstate))).filter
        led_state_is_valid
      = [{ state := s, not_state := 255 - s }] := by
  rw [List.filter_map]
  have hcongr : (List.range 256).filter
        (led_state_is_valid ∘ fun n => ({ state := s, not_state := n } : ledstate))
      = (List.range 256).filter (fun n => n == 255 - s) := by
    apply List.filter_congr
    intro n hn
    have hn' : n < 256 := List.mem_range.mp hn
    by_cases h : n = 255 - s
    · have hsn : s = 255 - n := by omega
      have hv := (valid_iff s n hn').mpr hsn
      show led_state_is_valid { state := s, not_state := n } = (n == 255 - s)
      rw [hv]
      simp [h]
    · have hne : ¬ s = 255 - n := by omega
      have hv : led_state_is_valid { state := s, not_state := n } = false := by
        cases hb : led_state_is_valid { state := s, not_state := n }
        · rfl
        · exact absurd ((valid_iff s n hn').mp hb) hne
      show led_state_is_valid { state := s, not_state := n } = (n == 255 - s)
      rw [hv]
      simp [h]
  rw [hcongr, List.filter_beq,
    List.count_eq_one_of_mem (List.nodup_range 256) (List.mem_range.mpr (by omega))]
  rfl

theorem length_flatMap_rows (l : List Nat) (f : Nat → List ledstate) (k : Nat)
    (h : ∀ x, (f x).length = k) : (l.flatMap f).length = l.length * k := by
  induction l with
  | nil => simp
  | cons x l ih =>
      rw [List.flatMap_cons, List.length_append, ih, h x, List.length_cons, Nat.succ_mul]
      omega

theorem valid_records_eq :
    valid_records = (List.range 256).map (fun s => { state := s, not_state := 255 - s }) := by
  unfold valid_records all_records
  rw [List.filter_flatMap, List.map_eq_flatMap]
  apply List.flatMap_congr
  intro s hs
  exact valid_row s (List.mem_range.mp hs)

/-- Claim C20. For every 8-bit value `v`, `set_led_state` stores `v` in `state` and the
result passes `led_state_is_valid`; a record of two bytes is valid exactly when
`not_state` is the 8-bit complement of `state`, that is when `state XOR not_state` is
`0xFF`; and of the 65536 records of two bytes exactly 256 are valid. -/
theorem ledstate_complement (ls : ledstate) (v s n : Nat) (hv : v < 256) (hs : s < 256)
    (hn : n < 256) :
    (set_led_state ls v).state = v
      ∧ led_state_is_valid (set_led_state ls v) = true
      ∧ (led_state_is_valid { state := s, not_state := n } = true ↔ n = not_u8 s)
      ∧ (led_state_is_valid { state := s, not_state := n } = true ↔ s ^^^ n = 0xFF)
      ∧ all_records.length = 65536
      ∧ valid_records.length = 256 := by
  refine ⟨rfl, ?_, ?_, ?_, ?_, ?_⟩
  · have h1 : not_u8 v < 256 := by rw [not_u8_eq v hv]; omega
    rw [set_led_state, valid_iff _ _ h1, not_u8_eq v hv]
    omega
  · rw [valid_iff s n hn, not_u8_eq s hs]
    omega
  · rw [valid_iff s n hn, xor_eq_255_iff s n hs hn]
  · rw [all_records, length_flatMap_rows _ _ 256 (fun x => by rw [List.length_map, List.length_range]),
      List.length_range]
  · rw [valid_records_eq, List.length_map, List.length_range]

/-- Witness of C20: the default state `0b010` and its complement `0xFD`. -/
theorem ledstate_complement_witness :
    (set_led_state { state := 0, not_state := 0 } 2).state = 2
      ∧ led_state_is_valid (set_led_state { state := 0, not_state := 0 } 2) = true
      ∧ (led_state_is_valid { state := 2, not_state := 253 } = true ↔ 253 = not_u8 2)
      ∧ (led_state_is_valid { state := 2, not_state := 253 } = true ↔ 2 ^^^ 253 = 0xFF)
      ∧ all_records.length = 65536
      ∧ valid_records.length = 256 :=
  ledstate_complement { state := 0, not_state := 0 } 2 2 253 (by decide) (by decide)
    (by decide)


/-! ## Start-up -/

/-- Claim C14, evaluated on the code. `main` calls `eeprom_write_ledstate` where the
stored record should be read, so what it loads never depends on the EEPROM.  With the
valid record of state `0b101` stored at `STORE_ADDR` (32766) by a previous run and a local
record of two zero bytes, `current_leds` becomes the default `0b010`, the LEDs show the
default and the stored record is replaced by the default one; with a local record that
happens to be valid, that record is loaded and written over the stored one. -/
theorem startup_ignores_stored_state :
    (∀ (mem mem' : Eeprom) (local_record : ledstate),
        (main_startup mem local_record).current_leds
          = (main_startup mem' local_record).current_leds)
    ∧ STORE_ADDR = 32766
    ∧ eeprom_read_ledstate (stored_record erased 5) STORE_ADDR
        = { state := 5, not_state := 250 }
    ∧ led_state_is_valid (eeprom_read_ledstate (stored_record erased 5) STORE_ADDR) = true
    ∧ (main_startup (stored_record erased 5) { state := 0, not_state := 0 }).current_leds = 2
    ∧ (main_startup (stored_record erased 5) { state := 0, not_state := 0 }).leds = (0, 1, 0)
    ∧ eeprom_read_ledstate
        (main_startup (stored_record erased 5) { state := 0, not_state := 0 }).eeprom
        STORE_ADDR = { state := 2, not_state := 253 }
    ∧ (main_startup (stored_record erased 5) { state := 3, not_state := 252 }).current_leds
        = 3
    ∧ eeprom_read_ledstate
        (main_startup (stored_record erased 5) { state := 3, not_state := 252 }).eeprom
        STORE_ADDR = { state := 3, not_state := 252 } := by
  refine ⟨?_, by decide, by decide, by decide, by decide, by decide, by decide, by decide,
    by decide⟩
  intro mem mem' local_record
  unfold main_startup
  split <;> rfl

/-! ## Debounce -/

theorem testBit_flip (x k i : Nat) :
    (x ^^^ 2 ^ k).testBit i = if i = k then !x.testBit i else x.testBit i := by
  rw [Nat.testBit_xor, Nat.testBit_two_pow]
  by_cases h : i = k
  · subst h
    simp
  · have h' : ¬ k = i := fun e => h e.symm
    simp [h, h']

theorem toggle_in_range (x k : Nat) (hx : x < 256) (hk : k < 3) :
    (x ^^^ 2 ^ k) % 256 = x ^^^ 2 ^ k := by
  apply Nat.mod_eq_of_lt
  have h1 : x < 2 ^ 8 := by simpa using hx
  have h2 : 2 ^ k < 2 ^ 8 := Nat.pow_lt_pow_right (by norm_num) (by omega)
  have := Nat.xor_lt_two_pow h1 h2
  simpa using this

/-- An event that passes the time check on switch `k` toggles the mask `2 ^ k`. -/
theorem callback_toggle (g : Globals) (gpio events t k : Nat) (hk : k < 3)
    (hgpio : gpio = SW0_GPIO - k)
    (hnot : ¬ (t + 2 ^ 64 - g.last_interrupt_time) % 2 ^ 64 < 500000) :
    gpio_callback g gpio events t
      = { current_leds := (g.current_leds ^^^ 2 ^ k) % 256, state_changed := true,
          last_interrupt_time := t } := by
  have hk3 : k = 0 ∨ k = 1 ∨ k = 2 := by omega
  subst hgpio
  unfold gpio_callback
  rw [if_neg hnot]
  rcases hk3 with rfl | rfl | rfl <;> rfl

/-- Claim C16. With `last_interrupt_time` not after the time `t` of the event: an event less
than 500000 microseconds after `last_interrupt_time` leaves `current_leds`, `state_changed`
and `last_interrupt_time` unchanged; an event at least 500000 microseconds after it on SW0,
SW1 or SW2 (GPIO 9, 8, 7; `k` is 0, 1, 2) flips bit `k` of `current_leds`, leaves every
other bit unchanged, sets `state_changed` and sets `last_interrupt_time` to `t`. -/
theorem debounce (g : Globals) (gpio events t : Nat) (hleds : g.current_leds < 256)
    (ht : t < 2 ^ 64) (hlast : g.last_interrupt_time ≤ t) :
    (t - g.last_interrupt_time < 500000 → gpio_callback g gpio events t = g)
    ∧ (500000 ≤ t - g.last_interrupt_time → ∀ k : Nat, k < 3 → gpio = SW0_GPIO - k →
        (gpio_callback g gpio events t).last_interrupt_time = t
        ∧ (gpio_callback g gpio events t).state_changed = true
        ∧ (gpio_callback g gpio events t).current_leds < 256
        ∧ ∀ i : Nat, (gpio_callback g gpio events t).current_leds.testBit i
            = if i = k then !g.current_leds.testBit i else g.current_leds.testBit i) := by
  have hdiff : (t + 2 ^ 64 - g.last_interrupt_time) % 2 ^ 64 = t - g.last_interrupt_time := by
    have h1 : t + 2 ^ 64 - g.last_interrupt_time = (t - g.last_interrupt_time) + 2 ^ 64 := by
      omega
    rw [h1, Nat.add_mod_right]
    exact Nat.mod_eq_of_lt (by omega)
  constructor
  · intro hsoon
    unfold gpio_callback
    rw [hdiff, if_pos hsoon]
  · intro hlate k hk hgpio
    have hnot : ¬ (t + 2 ^ 64 - g.last_interrupt_time) % 2 ^ 64 < 500000 := by
      rw [hdiff]; omega
    have hcall := callback_toggle g gpio events t k hk hgpio hnot
    rw [hcall]
    refine ⟨rfl, rfl, Nat.mod_lt _ (by norm_num), ?_⟩
    intro i
    show ((g.current_leds ^^^ 2 ^ k) % 256).testBit i = _
    rw [toggle_in_range g.current_leds k hleds hk]
    exact testBit_flip g.current_leds k i

/-- Witness of C16: with LEDs `0b010` and the last accepted event at time 1000000, a press
of SW2 at 1200000 is ignored and a press of SW2 at 1500000 gives `0b110`. -/
theorem debounce_witness :
    gpio_callback { current_leds := 2, state_changed := false, last_interrupt_time := 1000000 }
        7 4 1200000
      = { current_leds := 2, state_changed := false, last_interrupt_time := 1000000 }
    ∧ gpio_callback
        { current_leds := 2, state_changed := false, last_interrupt_time := 1000000 }
        7 4 1500000
      = { current_leds := 6, state_changed := true, last_interrupt_time := 1500000 } :=
  ⟨(debounce { current_leds := 2, state_changed := false, last_interrupt_time := 1000000 }
      7 4 1200000 (by decide) (by decide) (by decide)).1 (by decide),
   by decide⟩

end Lab5
